import Mathlib

/-!
Verification development for the METS generator / reader core of the `eatb`
repository (`eatb/metadata/mets/metsgenerator.py`, `eatb/metadata/mets/ParsedMets.py`,
`eatb/metadata/mets/metsutil.py`).

The Python code is shallowly embedded: pure helpers become Lean functions,
the mutable lxml element tree built by `MetsGenerator.createMets` becomes an
explicit generation state threaded through the directory walk, and fallible
operations return `Except String`.  External collaborators (checksum, file
size, mime guessing, timestamps, `os.path.isfile` for paths outside the
package tree) are supplied as function parameters in an `Externals` record;
`uuid.uuid4()` identifier generation is modelled by a fresh natural-number
counter (the code only requires identifiers to be fresh and unique).
-/

namespace Eatb

/-! ## Python string primitives

`str.split(sep)` with an explicit one-character separator, modelled from
Python semantics: split at every occurrence of the separator, keeping empty
fragments.  Used by `get_folder_with_USE` (`path.split('/')`) and by
`ParsedMets.get_mets_schema_from_schema_location` (`locations.split(' ')`). -/

def pySplitAux (sep : Char) : List Char → List Char → List String
  | [], acc => [String.mk acc.reverse]
  | c :: rest, acc =>
    if c = sep then String.mk acc.reverse :: pySplitAux sep rest []
    else pySplitAux sep rest (c :: acc)

def pySplitChar (s : String) (sep : Char) : List String :=
  pySplitAux sep s.data []

/-- Prefix test on char lists (an empty pattern is a prefix of anything). -/
def pyIsPrefix : List Char → List Char → Bool
  | [], _ => true
  | _ :: _, [] => false
  | c :: cs, d :: ds => c == d && pyIsPrefix cs ds

/-- Python `str.startswith`, modelled from Python semantics (in particular
`s.startswith('')` is `True` for every `s`). -/
def pyStartswith (s pre : String) : Bool :=
  pyIsPrefix pre.data s.data

/-- Python `str.endswith`: suffix test. -/
def pyEndswith (s suf : String) : Bool :=
  pyIsPrefix suf.data.reverse s.data.reverse

/-- Python `str.lower` (the code only compares ASCII filenames). -/
def pyLower (s : String) : String :=
  String.mk (s.data.map Char.toLower)

/-- Substring search: does `pat` occur (contiguously) in the char list? -/
def hasSubAux (pat : List Char) : List Char → Bool
  | [] => pyIsPrefix pat []
  | c :: rest => pyIsPrefix pat (c :: rest) || hasSubAux pat rest

/-- Python `pat in s` substring containment. -/
def pyContainsSub (s pat : String) : Bool :=
  hasSubAux pat.data s.data

/-- Python `list.index` for string lists: index of the first occurrence.
(The source only calls it on elements known to be present.) -/
def firstIdx : List String → String → Nat
  | [], _ => 0
  | x :: xs, t => if x == t then 0 else firstIdx xs t + 1

/-- Python subscript `locations[i]` (`none` models the `IndexError`). -/
def pyIndex : List String → Nat → Option String
  | [], _ => none
  | x :: _, 0 => some x
  | _ :: xs, n + 1 => pyIndex xs n

/-- Python `'sep'.join`-style concatenation used to rebuild paths. -/
def joinSep (sep : String) : List String → String
  | [] => ""
  | [x] => x
  | x :: xs => x ++ sep ++ joinSep sep xs

/-- Length of the common prefix of two segment lists. -/
def commonPrefixLen : List String → List String → Nat
  | x :: xs, y :: ys => if x = y then commonPrefixLen xs ys + 1 else 0
  | _, _ => 0

/-- `os.path.relpath(p, start)`, modelled from its documented semantics for
normalized slash-separated paths (no trailing slash, no `.`/`..` segments):
drop the common segment prefix, go up with `..` for each remaining `start`
segment, then descend into the remaining `p` segments; two equal paths give
`"."`. -/
def relpath (p start : String) : String :=
  let ps := pySplitChar p '/'
  let ss := pySplitChar start '/'
  let k := commonPrefixLen ps ss
  let parts := List.replicate (ss.length - k) ".." ++ ps.drop k
  if parts.isEmpty then "." else joinSep "/" parts

/-- Last path segment of a string containing `'/'`:
Python `directory.rsplit('/', 1)[1]`. -/
def lastSeg (s : String) : String :=
  (pySplitChar s '/').getLastD ""

/-! ## Path classifier (`get_folder_with_USE`, metsgenerator.py lines 37–51) -/

/-- `folders_with_USE = ['documentation', 'schemas', 'representations', "data"]` -/
def folders_with_USE : List String := ["documentation", "schemas", "representations", "data"]

/-- The `for dir in dirs[::-1]` loop body of `get_folder_with_USE`:
return the first segment (scanning a reversed segment list) that is a
recognized role token, else fall through. -/
def goUse : List String → String
  | [] => "other"
  | d :: rest => if folders_with_USE.contains d then d else goUse rest

/-- `get_folder_with_USE(path)`: split on `'/'`, scan segments from the last
to the first, return the first recognized role token, else `'other'`.
(The Python `try/except` around the loop only guards against non-string
input, which cannot arise in the typed embedding; every fall-through path
returns `'other'`.) -/
def get_folder_with_USE (path : String) : String :=
  goUse ((pySplitChar path '/').reverse)

/-! ## Descriptor reader (`ParsedMets.py`) -/

namespace ParsedMets

/-- Primary METS namespace URI (`ParsedMets.ns['mets']`). -/
def METS_NS : String := "http://www.loc.gov/METS/"

/-- lxml `root.xpath('@OBJID')`: the list of matching attribute values of the
root element — a singleton when the attribute is present, empty otherwise. -/
def xpathAttr : Option String → List String
  | some v => [v]
  | none => []

/-- `ParsedMets.get_obj_id`: `xpath_result[0] if len(xpath_result) == 1 else
"urn:uuid:none"`, taking the xpath result list for `@OBJID`. -/
def get_obj_id (xpath_result : List String) : String :=
  match xpath_result with
  | [v] => v
  | _ => "urn:uuid:none"

/-- `ParsedMets.get_package_type`: `xpath_result[0] if len(xpath_result) == 1
else "NONE"`, taking the xpath result list for `@TYPE`. -/
def get_package_type (xpath_result : List String) : String :=
  match xpath_result with
  | [v] => v
  | _ => "NONE"

/-- One iteration of the `for token in locations` loop of
`get_mets_schema_from_schema_location`: on the primary-namespace token,
recompute `position = locations.index(token)` (first occurrence), read
`locations[position + 1]` (an `IndexError` if out of range), and — since
`schema_location.startswith('')` is always true — set the accumulator to
`self.root_dir + schema_location` (plain concatenation, no separator). -/
def schemaLocStep (root_dir : String) (locations : List String) (schema_file token : String) :
    Except String String :=
  if token == METS_NS then
    match pyIndex locations (firstIdx locations token + 1) with
    | none => .error "IndexError: list index out of range"
    | some schema_location =>
      if pyStartswith schema_location "" then .ok (root_dir ++ schema_location)
      else .ok schema_file
  else .ok schema_file

/-- `ParsedMets.get_mets_schema_from_schema_location`, as a function of the
reader's root directory and the root element's `xsi:schemaLocation`
attribute value: split the attribute on spaces and run the token loop with
accumulator `schema_file = ''`. -/
def get_mets_schema_from_schema_location (root_dir schemaLocationAttr : String) :
    Except String String :=
  let locations := pySplitChar schemaLocationAttr ' '
  locations.foldlM (schemaLocStep root_dir locations) ""

end ParsedMets

/-! ## Relationship linker (`MetsGenerator.setParentRelation` / `addChildRelation`,
metsgenerator.py lines 149–212)

The sibling descriptor (`<root_path>/METS.xml`) is modelled at the level the
linker manipulates it: a document root with its `structMap` children, each
holding `div` children, which hold labelled `div` wrappers around a single
`mptr` pointer.  Parsing an empty (truncated) file fails like lxml's
`XMLSyntaxError`. -/

/-- The configuration dictionary handed to `createMets` (keys `'packageid'`,
`'type'`, `'schemas'`, `'parent'`). -/
structure MetsData where
  packageid : String
  ptype : String
  schemas : String
  parent : String
deriving DecidableEq

/-- An `mptr` pointer element created by the relationship linker. -/
structure Mptr where
  loctype : String
  otherloctype : String
  title : String
  href : String
  id : Nat
deriving DecidableEq

/-- The `div` wrapper (`LABEL='parent T'` / `'child T'`) holding one pointer. -/
structure RelDiv where
  label : String
  pointer : Mptr
deriving DecidableEq

/-- The `div` labelled `'parent T identifiers'` / `'child T identifiers'`
collecting the pointer wrappers. -/
structure IdsDiv where
  label : String
  children : List RelDiv
deriving DecidableEq

/-- A `structMap` child of the sibling document root. -/
structure SMap where
  label : String
  typ : String
  divs : List IdsDiv
deriving DecidableEq

/-- The sibling document, abstracted to its `structMap` children (the only
part the relationship linker reads or writes). -/
structure SibDoc where
  maps : List SMap
deriving DecidableEq

/-- Replace the first list element satisfying `p` (lxml `find` returns the
first match, and the code mutates exactly that element). -/
def updateFirst (p : α → Bool) (f : α → α) : List α → List α
  | [] => []
  | x :: xs => if p x then f x :: xs else x :: updateFirst p f xs

/-- Content of the sibling descriptor file: a well-formed serialized document,
or the empty content left behind by `open(path, 'w')` truncation. -/
inductive FileContent where
  | xmlDoc (d : SibDoc)
  | blank
deriving DecidableEq

/-- The filesystem as the linker sees it: the optional sibling descriptor at
`<root_path>/METS.xml` (`none` when `os.path.exists` is false). -/
structure LinkerFS where
  siblingMets : Option FileContent
deriving DecidableEq

/-- `etree.parse` on the sibling file: succeeds on a well-formed document,
raises `XMLSyntaxError` on an empty file. -/
def etree_parse : FileContent → Except String SibDoc
  | .xmlDoc d => .ok d
  | .blank => .error "XMLSyntaxError: Document is empty"

/-- A Python value holding a serialized document: `etree.tostring` with a
byte encoding (`encoding='UTF-8'`) yields `bytes`, `.decode('utf-8')`
turns it into `str`.  Modelled from lxml/Python 3 semantics. -/
inductive PyXmlVal where
  | pybytes (d : SibDoc)
  | pystr (d : SibDoc)
deriving DecidableEq

/-- `etree.tostring(root, encoding='UTF-8', pretty_print=True,
xml_declaration=True)`: returns `bytes` in Python 3. -/
def etree_tostring_utf8 (d : SibDoc) : PyXmlVal := .pybytes d

/-- Writing into a file opened in text mode (`open(path, 'w')`): accepts only
`str`; passing `bytes` raises `TypeError`.  Modelled from Python 3 I/O
semantics. -/
def textModeWrite : PyXmlVal → Except String SibDoc
  | .pystr d => .ok d
  | .pybytes _ => .error "TypeError: write() argument must be str, not bytes"

/-- The `MetsGenerator` instance state relevant to the linker: the root path
and the `mets_data` attribute, which is the class default `None` until
`createMets` stores the configuration dictionary. -/
structure MetsGenerator where
  root_path : String
  mets_data : Option MetsData
deriving DecidableEq

/-- The document transformation of `setParentRelation` (lines 157–174):
build the `div`/`mptr` pair for the identifier, look for a `structMap` child
labelled `'parent <type>'`; if found, append into its
`'parent <type> identifiers'` `div` (an `AttributeError` if that inner `div`
is missing, since `find` returned `None`); otherwise create the `structMap`,
the identifiers `div` and the wrapper, and append the new map at the end of
the root's children. -/
def setParentRelationDoc (packagetype identifier : String) (ctr : Nat) (doc : SibDoc) :
    Except String (SibDoc × Nat) :=
  let pointer : Mptr :=
    { loctype := "OTHER", otherloctype := "UUID",
      title := "Referencing a parent " ++ packagetype ++ ".",
      href := identifier, id := ctr }
  let parent : RelDiv := { label := "parent " ++ packagetype, pointer }
  let mapLabel := "parent " ++ packagetype
  let divLabel := "parent " ++ packagetype ++ " identifiers"
  match doc.maps.find? (fun m => m.label == mapLabel) with
  | some m =>
    match m.divs.find? (fun d => d.label == divLabel) with
    | none => .error "AttributeError: NoneType object has no attribute append"
    | some _ =>
      let updDiv : IdsDiv → IdsDiv := fun d => { d with children := d.children ++ [parent] }
      let updMap : SMap → SMap := fun m' =>
        { m' with divs := updateFirst (fun d => d.label == divLabel) updDiv m'.divs }
      .ok (⟨updateFirst (fun m' => m'.label == mapLabel) updMap doc.maps⟩, ctr + 1)
  | none =>
    let newMap : SMap :=
      { label := mapLabel, typ := "logical",
        divs := [{ label := divLabel, children := [parent] }] }
    .ok (⟨doc.maps ++ [newMap]⟩, ctr + 1)

/-- The document transformation of `addChildRelation` (lines 189–206),
analogous to `setParentRelationDoc` with labels `'child <type>'` and
`'child <type> identifiers'`. -/
def addChildRelationDoc (packagetype identifier : String) (ctr : Nat) (doc : SibDoc) :
    Except String (SibDoc × Nat) :=
  let pointer : Mptr :=
    { loctype := "OTHER", otherloctype := "UUID",
      title := "Referencing a child " ++ packagetype ++ ".",
      href := identifier, id := ctr }
  let child : RelDiv := { label := "child " ++ packagetype, pointer }
  let mapLabel := "child " ++ packagetype
  let divLabel := "child " ++ packagetype ++ " identifiers"
  match doc.maps.find? (fun m => m.label == mapLabel) with
  | some m =>
    match m.divs.find? (fun d => d.label == divLabel) with
    | none => .error "AttributeError: NoneType object has no attribute append"
    | some _ =>
      let updDiv : IdsDiv → IdsDiv := fun d => { d with children := d.children ++ [child] }
      let updMap : SMap → SMap := fun m' =>
        { m' with divs := updateFirst (fun d => d.label == divLabel) updDiv m'.divs }
      .ok (⟨updateFirst (fun m' => m'.label == mapLabel) updMap doc.maps⟩, ctr + 1)
  | none =>
    let newMap : SMap :=
      { label := mapLabel, typ := "logical",
        divs := [{ label := divLabel, children := [child] }] }
    .ok (⟨doc.maps ++ [newMap]⟩, ctr + 1)

/-- `MetsGenerator.setParentRelation(identifier)` (lines 149–180): read the
package type from `self.mets_data` (`TypeError` when `mets_data` is still the
class default `None`, before any `createMets` run); if the sibling file
exists, parse it, apply the document transformation, serialize with
`etree.tostring(..., encoding='UTF-8')` (bytes), open the sibling in text
mode `'w'` (truncating it) and write — which fails on bytes; if the sibling
file does not exist, only a debug message is logged.  Returns the outcome,
the resulting filesystem and the identifier counter. -/
def setParentRelation (g : MetsGenerator) (identifier : String) (fs : LinkerFS) (ctr : Nat) :
    Except String Unit × LinkerFS × Nat :=
  match g.mets_data with
  | none => (.error "TypeError: NoneType object is not subscriptable", fs, ctr)
  | some md =>
    let packagetype := md.ptype
    match fs.siblingMets with
    | none => (.ok (), fs, ctr)
    | some content =>
      match etree_parse content with
      | .error e => (.error e, fs, ctr)
      | .ok doc =>
        match setParentRelationDoc packagetype identifier ctr doc with
        | .error e => (.error e, fs, ctr)
        | .ok (doc', ctr') =>
          let out := etree_tostring_utf8 doc'
          let fsOpened : LinkerFS := ⟨some .blank⟩
          match textModeWrite out with
          | .error e => (.error e, fsOpened, ctr')
          | .ok d => (.ok (), ⟨some (.xmlDoc d)⟩, ctr')

/-- `MetsGenerator.addChildRelation(identifier)` (lines 182–212), with the
same structure as `setParentRelation`. -/
def addChildRelation (g : MetsGenerator) (identifier : String) (fs : LinkerFS) (ctr : Nat) :
    Except String Unit × LinkerFS × Nat :=
  match g.mets_data with
  | none => (.error "TypeError: NoneType object is not subscriptable", fs, ctr)
  | some md =>
    let packagetype := md.ptype
    match fs.siblingMets with
    | none => (.ok (), fs, ctr)
    | some content =>
      match etree_parse content with
      | .error e => (.error e, fs, ctr)
      | .ok doc =>
        match addChildRelationDoc packagetype identifier ctr doc with
        | .error e => (.error e, fs, ctr)
        | .ok (doc', ctr') =>
          let out := etree_tostring_utf8 doc'
          let fsOpened : LinkerFS := ⟨some .blank⟩
          match textModeWrite out with
          | .error e => (.error e, fsOpened, ctr')
          | .ok d => (.ok (), ⟨some (.xmlDoc d)⟩, ctr')

/-! ## Generator (`MetsGenerator.createMets`, metsgenerator.py lines 214–478)

The mutable lxml tree is replaced by an explicit `GenState`: file groups are
identified by fresh numeric ids (`uuid.uuid4()` modelled by a counter), the
files appended into a group element are kept in a registration log keyed by
the group id (Python appends into the shared, aliased `fileGrp` object), and
the structural-map divisions accumulate pointer children in append order. -/

/-- Namespace and schema-location constants (metsgenerator.py lines 18–30). -/
def METS_NS : String := "http://www.loc.gov/METS/"

def XLINK_NS : String := "http://www.w3.org/1999/xlink"

def CSIP_NS : String := "https://DILCIS.eu/XML/METS/CSIPExtensionMETS"

def default_mets_schema_location : String := "schemas/mets.xsd"

def default_csip_location : String := "schemas/DILCISExtensionMETS.xsd"

def default_xlink_schema_location : String := "https://www.w3.org/1999/xlink.xsd"

/-- External collaborators consumed by the generator: checksum, file size,
creation timestamp, mime guessing (`None` → octet-stream fallback applied at
the call sites), the current timestamp, and `os.path.isfile` for the schema
folder probes (the schema folder may lie outside the package tree). -/
structure Externals where
  sha256 : String → String
  getsize : String → Nat
  ctimeIso : String → String
  mimeGuess : String → Option String
  now : String
  isfile : String → Bool

/-- A `<file>` element appended into a `fileGrp` by `addFile`
(lines 105–122). -/
structure MetsFile where
  mimetype : String
  checksumtype : String
  created : String
  checksum : String
  use : String
  id : Nat
  size : Nat
  href : String
deriving DecidableEq

/-- A pointer child of a structural-map `div`: a `<fptr FILEID=...>` or a
`<mptr>` package reference (the `OTHERLOCTYPE`/`xlink:type` attributes are
constants determined by the creation site and are not repeated here). -/
inductive Ptr where
  | fptr (fileid : Nat)
  | mptr (loctype : String) (title : String) (href : String) (id : Nat)
deriving DecidableEq

/-- A physical structural-map `div` appended under the package `div`
(line 338), with its pointer children in append order. -/
structure PhysDiv where
  label : String
  id : Nat
  children : List Ptr
deriving DecidableEq

/-- A `mdRef` built by `make_mdref` (lines 133–147). -/
structure MdRef where
  loctype : String
  mimetype : String
  created : String
  href : String
  checksumtype : String
  checksum : String
  id : Nat
  size : Nat
  mdtype : String
deriving DecidableEq

/-- A `dmdSec` with its single `mdRef` child. -/
structure DmdSec where
  id : Nat
  created : String
  status : String
  mdref : MdRef
deriving DecidableEq

/-- A `digiprovMD` appended into the `amdSec`, with its single `mdRef`. -/
structure DigiprovMD where
  id : Nat
  status : Option String
  mdref : MdRef
deriving DecidableEq

/-- A serialized `fileGrp` of the `fileSec`, with its final file children. -/
structure FileGrp where
  gid : Nat
  use : String
  files : List MetsFile
deriving DecidableEq

/-- The generation state threaded through the walk: the id counter, the
`fileGrp` elements created so far (`groupDefs`, creation order), the
`mets_filegroups` dict (`grpOfUse`, latest binding first), the group ids
appended to the `fileSec` element, the metadata sections, the physical
divisions completed so far, the three logical divisions' pointer lists, and
the registration log of `<file>` elements with their owning group id. -/
structure GenState where
  ctr : Nat
  groupDefs : List (Nat × String)
  grpOfUse : List (String × Nat)
  fileSecGids : List Nat
  dmdSecs : List DmdSec
  amdSec : List DigiprovMD
  physDivs : List PhysDiv
  metadataPtrs : List Ptr
  schemaPtrs : List Ptr
  contentPtrs : List Ptr
  filesLog : List (Nat × MetsFile)
deriving DecidableEq

/-- Draw a fresh identifier (`"ID" + uuid.uuid4()` modelled by the counter). -/
def fresh (st : GenState) : Nat × GenState :=
  (st.ctr, { st with ctr := st.ctr + 1 })

/-- Python dict lookup `mets_filegroups[use]` (raising `KeyError` is decided
at the call sites from the `none` result). -/
def dictGet (d : List (String × Nat)) (k : String) : Option Nat :=
  (d.find? (fun p => p.1 == k)).map (fun p => p.2)

/-- The final file children of the `fileGrp` with id `gid` (every `<file>`
appended into that shared element during the walk, in append order). -/
def groupFiles (st : GenState) (gid : Nat) : List MetsFile :=
  (st.filesLog.filter (fun p => p.1 == gid)).map (fun p => p.2)

/-- A directory tree as discovered by `os.walk`: directory name, plain files
and subdirectories in enumeration order. -/
inductive FSTree where
  | node (name : String) (files : List String) (subdirs : List FSTree)

def FSTree.name : FSTree → String
  | .node n _ _ => n

def FSTree.files : FSTree → List String
  | .node _ f _ => f

def FSTree.subdirs : FSTree → List FSTree
  | .node _ _ s => s

/-- `os.path.isfile` for a path under the package root, given as the list of
path segments relative to the root. -/
def FSTree.isFilePath : FSTree → List String → Bool
  | _, [] => false
  | t, [f] => t.files.contains f
  | t, seg :: rest =>
    match t.subdirs.find? (fun u => u.name == seg) with
    | some u => u.isFilePath rest
    | none => false

mutual
/-- `os.walk` over a subtree without pruning (as used for the metadata
sub-folders, lines 370 and 399), collecting `(directory, filenames)` pairs
in top-down order. -/
def walkCollect : FSTree → String → List (String × List String)
  | .node _ files subs, absDir => (absDir, files) :: walkCollectList subs absDir

def walkCollectList : List FSTree → String → List (String × List String)
  | [], _ => []
  | u :: us, absParent =>
    walkCollect u (absParent ++ "/" ++ u.name) ++ walkCollectList us absParent
end

/-- `MetsGenerator.addFile(file_name, mets_filegroup)` (lines 105–122):
compute the relative URL, mime type (octet-stream fallback), checksum, size
and creation date, draw a fresh id, and append the `<file>` element (with its
`FLocat` href) into the group with id `gid`.  Returns the file id. -/
def addFile (ext : Externals) (rootPath fileName : String) (gid : Nat) (st : GenState) :
    Nat × GenState :=
  let file_url := relpath fileName rootPath
  let file_mimetype := (ext.mimeGuess file_url).getD "application/octet-stream"
  let file_checksum := ext.sha256 fileName
  let file_size := ext.getsize fileName
  let file_cdate := ext.ctimeIso fileName
  let (file_id, st') := fresh st
  let f : MetsFile :=
    { mimetype := file_mimetype, checksumtype := "SHA-256", created := file_cdate,
      checksum := file_checksum, use := "Datafile", id := file_id, size := file_size,
      href := file_url }
  (file_id, { st' with filesLog := st'.filesLog ++ [(gid, f)] })

/-- `MetsGenerator.make_mdref(path, file, id, mdtype)` (lines 133–147). -/
def make_mdref (ext : Externals) (rootPath path file : String) (mid : Nat) (mdtype : String) :
    MdRef :=
  let full := path ++ "/" ++ file
  { loctype := "URL", mimetype := (ext.mimeGuess full).getD "application/octet-stream",
    created := ext.now, href := relpath full rootPath, checksumtype := "SHA-256",
    checksum := ext.sha256 full, id := mid, size := ext.getsize full, mdtype := mdtype }

/-- The `KeyError` raised by a failed `mets_filegroups[...]` lookup. -/
def keyErrMsg (use : String) : String := "KeyError: " ++ use

/-- One iteration of the `for filename in filenames` loop for directories
outside `<root>/metadata` (lines 432–471).  The accumulator carries the
state, the pointer children of the directory's physical `div` so far, and
the flag recording whether `del subdirectories[:]` ran.  Files directly at
the package root are ignored; a `METS.xml` prunes the walk and appends the
`mptr` (in enumeration order, before registering the file itself); files in
directories ending in `schemas` go to the schema division; any other file
goes to the content division, where — and only where — a failed group lookup
is caught (`except KeyError`), reported and skipped. -/
def processOtherFile (ext : Externals) (rootPath packageid packagetype absDir : String)
    (acc : GenState × List Ptr × Bool) (filename : String) :
    Except String (GenState × List Ptr × Bool) :=
  let (st, divChildren, pruned) := acc
  if absDir == rootPath then
    .ok (st, divChildren, pruned)
  else
    let rel_path_file := relpath (absDir ++ "/" ++ filename) rootPath
    if pyLower filename == "mets.xml" then
      let rep_name := lastSeg absDir
      let (pid, st1) := fresh st
      let metspointer : Ptr := .mptr "URL"
        ("Mets file describing representation: " ++ rep_name ++ " of " ++ packagetype
          ++ ": urn:uuid:" ++ packageid ++ ".") rel_path_file pid
      let divChildren1 := divChildren ++ [metspointer]
      match dictGet st1.grpOfUse (get_folder_with_USE absDir) with
      | none => .error (keyErrMsg (get_folder_with_USE absDir))
      | some gid =>
        let (fid, st2) := addFile ext rootPath (absDir ++ "/" ++ filename) gid st1
        .ok (st2, divChildren1 ++ [Ptr.fptr fid], true)
    else if filename != "" && pyEndswith absDir "schemas" then
      match dictGet st.grpOfUse (get_folder_with_USE absDir) with
      | none => .error (keyErrMsg (get_folder_with_USE absDir))
      | some gid =>
        let (fid, st1) := addFile ext rootPath (absDir ++ "/" ++ filename) gid st
        .ok ({ st1 with schemaPtrs := st1.schemaPtrs ++ [Ptr.fptr fid] },
          divChildren ++ [Ptr.fptr fid], pruned)
    else if filename != "" then
      match dictGet st.grpOfUse (get_folder_with_USE absDir) with
      | none => .ok (st, divChildren, pruned)
      | some gid =>
        let (fid, st1) := addFile ext rootPath (absDir ++ "/" ++ filename) gid st
        .ok ({ st1 with contentPtrs := st1.contentPtrs ++ [Ptr.fptr fid] },
          divChildren ++ [Ptr.fptr fid], pruned)
    else .ok (st, divChildren, pruned)

/-- The `conduit.log` handling at `<root>/metadata` (lines 350–359); the
filename list it iterates was already cleared by the `'/metadata'` suffix
check (lines 344–346), so in practice this loop never fires. -/
def conduitStep (ext : Externals) (rootPath absDir : String)
    (acc : GenState × List Ptr) (filename : String) : GenState × List Ptr :=
  let (st, divChildren) := acc
  if filename == "conduit.log" then
    let (dpId, st1) := fresh st
    let (mid, st2) := fresh st1
    let ref := make_mdref ext rootPath absDir filename mid "OTHER"
    ({ st2 with
        amdSec := st2.amdSec ++ [{ id := dpId, status := none, mdref := ref }],
        metadataPtrs := st2.metadataPtrs ++ [Ptr.fptr mid] },
      divChildren ++ [Ptr.fptr mid])
  else (st, divChildren)

/-- Registration of one file of a migration-scoped metadata folder
(lines 370–396): classified by the *directory* suffix into a descriptive
section or a provenance section (with the PREMIS filename heuristic);
anything else is only logged. -/
def processMigFile (ext : Externals) (rootPath dir : String)
    (acc : GenState × List Ptr) (filename : String) : GenState × List Ptr :=
  let (st, divChildren) := acc
  if pyEndswith dir "descriptive" then
    let (dmdId, st1) := fresh st
    let (mid, st2) := fresh st1
    let ref := make_mdref ext rootPath dir filename mid "OTHER"
    ({ st2 with
        dmdSecs := st2.dmdSecs ++ [{ id := dmdId, created := ext.now, status := "CURRENT", mdref := ref }],
        metadataPtrs := st2.metadataPtrs ++ [Ptr.fptr mid] },
      divChildren ++ [Ptr.fptr mid])
  else if pyEndswith dir "preservation" then
    let (dpId, st1) := fresh st
    let (mid, st2) := fresh st1
    let mdtype :=
      if pyStartswith filename "premis" || pyEndswith filename "premis.xml" then "PREMIS" else "OTHER"
    let ref := make_mdref ext rootPath dir filename mid mdtype
    ({ st2 with
        amdSec := st2.amdSec ++ [{ id := dpId, status := none, mdref := ref }],
        metadataPtrs := st2.metadataPtrs ++ [Ptr.fptr mid] },
      divChildren ++ [Ptr.fptr mid])
  else (st, divChildren)

/-- Registration of one file of an ordinary metadata folder (lines 399–429):
classified by the metadata *folder name* (`descriptive` vs
`preservation`/`conduit`, the latter with `STATUS="CURRENT"` and the PREMIS
heuristic); anything else is only logged. -/
def processNonMigFile (ext : Externals) (rootPath dir dirname : String)
    (acc : GenState × List Ptr) (filename : String) : GenState × List Ptr :=
  let (st, divChildren) := acc
  if dirname == "descriptive" then
    let (dmdId, st1) := fresh st
    let (mid, st2) := fresh st1
    let ref := make_mdref ext rootPath dir filename mid "OTHER"
    ({ st2 with
        dmdSecs := st2.dmdSecs ++ [{ id := dmdId, created := ext.now, status := "CURRENT", mdref := ref }],
        metadataPtrs := st2.metadataPtrs ++ [Ptr.fptr mid] },
      divChildren ++ [Ptr.fptr mid])
  else if dirname == "preservation" || dirname == "conduit" then
    let (dpId, st1) := fresh st
    let (mid, st2) := fresh st1
    let mdtype :=
      if pyStartswith filename "premis" || pyEndswith filename "premis.xml" then "PREMIS"
      else if filename != "" then "OTHER" else ""
    let ref := make_mdref ext rootPath dir filename mid mdtype
    ({ st2 with
        amdSec := st2.amdSec ++ [{ id := dpId, status := some "CURRENT", mdref := ref }],
        metadataPtrs := st2.metadataPtrs ++ [Ptr.fptr mid] },
      divChildren ++ [Ptr.fptr mid])
  else (st, divChildren)

/-- `fnmatch.fnmatch(dirname, '*_mig-*')`: the name contains `_mig-`. -/
def fnmatchMig (dirname : String) : Bool :=
  pyContainsSub dirname "_mig-"

/-- `os.listdir` on a directory node: its entry names.  (The OS order is
unspecified; directories-then-files is fixed here.) -/
def listdir (t : FSTree) : List String :=
  t.subdirs.map FSTree.name ++ t.files

/-- The `<root>/metadata` directory handling (lines 361–429): for every
entry of `os.listdir`, migration-scoped folders (`*_mig-*`) are registered
only when no `representations/<name>/METS.xml` exists; other folders are
walked and registered according to their folder name.  Entries that are
plain files are walked by `os.walk` to an empty iteration. -/
def processMetadataDir (ext : Externals) (rootTree : FSTree) (rootPath : String)
    (metaTree : FSTree) (absDir : String) (start : GenState × List Ptr) :
    GenState × List Ptr :=
  (listdir metaTree).foldl (fun acc dirname =>
    if fnmatchMig dirname then
      if rootTree.isFilePath ["representations", dirname, "METS.xml"] then acc
      else
        match metaTree.subdirs.find? (fun u => u.name == dirname) with
        | none => acc
        | some sub =>
          let walkPairs := walkCollect sub (absDir ++ "/" ++ dirname)
          walkPairs.foldl (fun acc2 p => p.2.foldl (processMigFile ext rootPath p.1) acc2) acc
    else
      match metaTree.subdirs.find? (fun u => u.name == dirname) with
      | none => acc
      | some sub =>
        let walkPairs := walkCollect sub (absDir ++ "/" ++ dirname)
        walkPairs.foldl (fun acc2 p =>
          if p.2.length > 0 then p.2.foldl (processNonMigFile ext rootPath p.1 dirname) acc2
          else acc2) acc) start

/-- Append the completed physical `div` (when one was created, i.e. for every
visited directory other than the root) with its collected pointer children. -/
def appendDiv (st : GenState) (mdiv : Option (String × Nat)) (children : List Ptr) : GenState :=
  match mdiv with
  | some (label, did) => { st with physDivs := st.physDivs ++ [⟨label, did, children⟩] }
  | none => st

/-- One iteration of the main `os.walk` loop (lines 331–471) for a single
directory: the `representations` top-level directory is passed over
entirely; any other non-root directory gets a physical `div`; a directory
ending in `/metadata` has its files and subdirectories cleared; the
`<root>/metadata` directory is handled by `processMetadataDir`; everything
else runs the per-file classification loop.  Returns the updated state and
whether the walk must not descend into this directory's subdirectories. -/
def processDir (ext : Externals) (rootTree : FSTree) (rootPath packageid packagetype : String)
    (absDir : String) (t : FSTree) (st : GenState) : Except String (GenState × Bool) :=
  let path := relpath absDir rootPath
  if path == "representations" then .ok (st, false)
  else
    let divSt : Option (String × Nat) × GenState :=
      if path != "." then
        let (did, st') := fresh st
        (some (path, did), st')
      else (none, st)
    let mdiv := divSt.1
    let st0 := divSt.2
    let cleared := pyEndswith absDir "/metadata"
    let files1 := if cleared then ([] : List String) else t.files
    if absDir == rootPath ++ "/metadata" then
      let acc1 := files1.foldl (conduitStep ext rootPath absDir) (st0, ([] : List Ptr))
      let acc2 := processMetadataDir ext rootTree rootPath t absDir acc1
      .ok (appendDiv acc2.1 mdiv acc2.2, true)
    else
      match files1.foldlM (processOtherFile ext rootPath packageid packagetype absDir)
          (st0, ([] : List Ptr), false) with
      | .error e => .error e
      | .ok (st1, ch, metsPruned) =>
        .ok (appendDiv st1 mdiv ch, cleared || metsPruned)

mutual
/-- The main `os.walk` traversal (lines 331–471, top-down): process the
directory, then — unless its subdirectory list was cleared — descend into
the subdirectories in enumeration order. -/
def walkDir (ext : Externals) (rootTree : FSTree) (rootPath packageid packagetype : String) :
    FSTree → String → GenState → Except String GenState
  | t@(.node _ _ subs), absDir, st =>
    match processDir ext rootTree rootPath packageid packagetype absDir t st with
    | .error e => .error e
    | .ok (st', pruned) =>
      if pruned then .ok st'
      else walkSubs ext rootTree rootPath packageid packagetype subs absDir st'

/-- Walk the subdirectory list in order, threading the state; a `KeyError`
escaping any directory aborts the whole traversal. -/
def walkSubs (ext : Externals) (rootTree : FSTree) (rootPath packageid packagetype : String) :
    List FSTree → String → GenState → Except String GenState
  | [], _, st => .ok st
  | u :: us, absParent, st =>
    match walkDir ext rootTree rootPath packageid packagetype u
        (absParent ++ "/" ++ u.name) st with
    | .error e => .error e
    | .ok st' => walkSubs ext rootTree rootPath packageid packagetype us absParent st'
end

/-- The parent-relation structural map created when a parent identifier is
supplied (lines 313–324). -/
structure ParentRelMap where
  divLabel : String
  divId : Nat
  pointer : Ptr
deriving DecidableEq

/-- The generated descriptor, as far as the claims inspect it: root OBJID,
the `xsi:schemaLocation` attribute, the dominant file group (created for the
package root's own role token), the serialized `fileSec` content, the
optional parent-relation map, and the final generation state (all groups,
registration log, structural-map divisions and logical pointer lists). -/
structure MetsDoc where
  objid : String
  schemaLocationAttr : String
  dominantUse : String
  dominantGid : Nat
  fileSec : List FileGrp
  parentRel : Option ParentRelMap
  st : GenState
deriving DecidableEq

/-- The `fileSec` element's serialized content: the groups appended to it,
in append order, with the final (aliased) file children. -/
def serializeFileSec (st : GenState) : List FileGrp :=
  st.fileSecGids.filterMap (fun gid =>
    (st.groupDefs.find? (fun p => p.1 == gid)).map (fun p => ⟨p.1, p.2, groupFiles st gid⟩))

/-- The per-subdirectory file-group creation step (lines 276–279): for a
recognized top-level subdirectory, draw a fresh group id, record the group,
override the dict binding and append the group to the `fileSec`. -/
def subdirGroupStep (st : GenState) (sub : String) : GenState :=
  if folders_with_USE.contains sub then
    let (gid, st') := fresh st
    { st' with groupDefs := st'.groupDefs ++ [(gid, sub)],
               grpOfUse := (sub, gid) :: st'.grpOfUse,
               fileSecGids := st'.fileSecGids ++ [gid] }
  else st

/-- The `mets.xsd` schema location recorded at generation time
(lines 233–236): root-relative when the file exists in the schema folder,
else the fixed default. -/
def mets_schema_location_of (ext : Externals) (rootPath schemafolder : String) : String :=
  if ext.isfile (schemafolder ++ "/mets.xsd") then relpath (schemafolder ++ "/mets.xsd") rootPath
  else default_mets_schema_location

/-- The `xlink.xsd` schema location (lines 237–240). -/
def xlink_schema_location_of (ext : Externals) (rootPath schemafolder : String) : String :=
  if ext.isfile (schemafolder ++ "/xlink.xsd") then relpath (schemafolder ++ "/xlink.xsd") rootPath
  else default_xlink_schema_location

/-- The `xsi:schemaLocation` root attribute (lines 242–247): the three
namespace/location pairs joined with single spaces. -/
def schemaLocationAttrOf (ext : Externals) (rootPath schemafolder : String) : String :=
  METS_NS ++ " " ++ mets_schema_location_of ext rootPath schemafolder ++ " " ++ XLINK_NS ++ " "
    ++ xlink_schema_location_of ext rootPath schemafolder ++ " " ++ CSIP_NS ++ " "
    ++ default_csip_location

/-- `MetsGenerator.createMets(mets_data)` (lines 214–478): build the
skeleton (schema locations from the schema-folder probes, the dominant file
group for the package root's role token — created but never itself appended
to the `fileSec` — and one appended group per recognized top-level
subdirectory), create the parent-relation map when a parent id is supplied,
then walk the package tree.  A `KeyError` escaping the walk aborts the
generation with no descriptor produced. -/
def createMets (ext : Externals) (rootPath : String) (mets_data : MetsData) (tree : FSTree) :
    Except String MetsDoc :=
  let packageid := mets_data.packageid
  let packagetype := mets_data.ptype
  let schemafolder := mets_data.schemas
  let parent := mets_data.parent
  let schemaLocationAttr := schemaLocationAttrOf ext rootPath schemafolder
  let folder_use_root := get_folder_with_USE rootPath
  -- ids 0 and 1 go to the amdSec and fileSec elements (lines 263, 267);
  -- id 2 is the dominant file group (line 274), created and put into the
  -- dict but not appended to the fileSec
  let domGid : Nat := 2
  let st4 : GenState :=
    { ctr := 3, groupDefs := [(domGid, folder_use_root)],
      grpOfUse := [(folder_use_root, domGid)], fileSecGids := [], dmdSecs := [],
      amdSec := [], physDivs := [], metadataPtrs := [], schemaPtrs := [], contentPtrs := [],
      filesLog := [] }
  -- one file group per recognized top-level subdirectory, appended to the
  -- fileSec and overriding the dict binding (lines 276–279)
  let st5 := (tree.subdirs.map FSTree.name).foldl subdirGroupStep st4
  -- seven further skeleton ids: the CSIP structMap and package div, the
  -- logical structMap and its package-structure div, and the metadata,
  -- schema and content divs (lines 282–303); with a parent identifier two
  -- more ids go to the parent-relation structMap's div and pointer
  -- (lines 313–324)
  let stStart : GenState :=
    if parent != "" then { st5 with ctr := st5.ctr + 9 } else { st5 with ctr := st5.ctr + 7 }
  let parentRel : Option ParentRelMap :=
    if parent != "" then
      some { divLabel := packagetype ++ " parent identifier", divId := st5.ctr + 7,
             pointer := Ptr.mptr "OTHER"
               ("Referencing the parent " ++ packagetype ++ " of this (" ++ packageid
                 ++ ") " ++ packagetype ++ ".") parent (st5.ctr + 8) }
    else none
  match walkDir ext tree rootPath packageid packagetype tree rootPath stStart with
  | .error e => .error e
  | .ok stF =>
    .ok { objid := packageid, schemaLocationAttr := schemaLocationAttr,
          dominantUse := folder_use_root, dominantGid := domGid,
          fileSec := serializeFileSec stF, parentRel := parentRel, st := stF }

/-! ## Projections, well-formedness and invariants used by the statements -/

/-- The kind of a pointer node (file pointer vs package-reference pointer). -/
def ptrTag : Ptr → String
  | .fptr _ => "fptr"
  | .mptr _ _ _ _ => "mptr"

/-- The serialized `fileSec` groups of a generation outcome (empty when the
generation aborted and produced no descriptor). -/
def docFileSec : Except String MetsDoc → List FileGrp
  | .ok d => d.fileSec
  | .error _ => []

/-- The final file children of the dominant group of a generation outcome. -/
def docDominantFiles : Except String MetsDoc → List MetsFile
  | .ok d => groupFiles d.st d.dominantGid
  | .error _ => []

/-- The physical structural-map divisions of a generation outcome. -/
def docPhysDivs : Except String MetsDoc → List PhysDiv
  | .ok d => d.st.physDivs
  | .error _ => []

/-- The `xsi:schemaLocation` attribute of a generation outcome. -/
def docSchemaLoc : Except String MetsDoc → Option String
  | .ok d => some d.schemaLocationAttr
  | .error _ => none

/-- `next(os.walk(root_path))[1]`: the top-level subdirectory names. -/
def topSubdirNames (tree : FSTree) : List String :=
  tree.subdirs.map FSTree.name

/-- Two successive `addChildRelation` document transformations with the same
identifier (the in-memory update each call performs before serializing). -/
def childLinkTwice (packagetype identifier : String) (d : SibDoc) : Except String SibDoc :=
  match addChildRelationDoc packagetype identifier 0 d with
  | .error e => .error e
  | .ok (d1, c1) =>
    match addChildRelationDoc packagetype identifier c1 d1 with
    | .error e => .error e
    | .ok (d2, _) => .ok d2

/-- A well-formed directory-entry name, as `os.walk` can actually produce it:
nonempty, without path separators, and not the self-reference `.`. -/
def goodName (s : String) : Bool :=
  s != "" && !(s.data.contains '/') && s != "."

mutual
/-- Well-formedness of a directory tree: every subdirectory (recursively)
has a well-formed name. -/
def FSTree.wf : FSTree → Bool
  | .node _ _ subs => FSTree.wfList subs

def FSTree.wfList : List FSTree → Bool
  | [] => true
  | u :: us => goodName u.name && u.wf && FSTree.wfList us
end

/-- Identifier discipline of the registration log: every registered file id
is below the counter and the ids are pairwise distinct. -/
def IdsOk (st : GenState) : Prop :=
  (∀ p ∈ st.filesLog, p.2.id < st.ctr) ∧ (st.filesLog.map (fun p => p.2.id)).Nodup

/-- Every registered file has a file pointer in some completed physical
division. -/
def LogCov (st : GenState) : Prop :=
  ∀ p ∈ st.filesLog, ∃ d ∈ st.physDivs, Ptr.fptr p.2.id ∈ d.children

/-- As `LogCov`, but a registered file may instead be covered by the pointer
children collected for the physical division currently under construction. -/
def LogCovCh (st : GenState) (ch : List Ptr) : Prop :=
  ∀ p ∈ st.filesLog, (∃ d ∈ st.physDivs, Ptr.fptr p.2.id ∈ d.children) ∨ Ptr.fptr p.2.id ∈ ch

/-- The fields of the generation state that the walk never modifies: the
created groups, the group dict and the `fileSec` membership. -/
def stableGroups (a b : GenState) : Prop :=
  b.groupDefs = a.groupDefs ∧ b.grpOfUse = a.grpOfUse ∧ b.fileSecGids = a.fileSecGids

/-- Evolution of the per-file fold accumulator inside a directory: group
bookkeeping and completed divisions unchanged, counter monotone, identifier
discipline and pointer coverage carried along. -/
def stepOk (a b : GenState × List Ptr × Bool) : Prop :=
  stableGroups a.1 b.1 ∧ b.1.physDivs = a.1.physDivs ∧ a.1.ctr ≤ b.1.ctr ∧
    (IdsOk a.1 → IdsOk b.1) ∧ (LogCovCh a.1 a.2.1 → LogCovCh b.1 b.2.1)

/-- Evolution of the metadata-registration accumulator: registration log,
divisions and group bookkeeping unchanged, counter monotone, the collected
pointer-children list only extended. -/
def mdEvolve (a b : GenState × List Ptr) : Prop :=
  b.1.filesLog = a.1.filesLog ∧ b.1.physDivs = a.1.physDivs ∧ stableGroups a.1 b.1 ∧
    a.1.ctr ≤ b.1.ctr ∧ ∃ sfx, b.2 = a.2 ++ sfx

/-- The hypothesis carried down the walk: the visited directory is the
package root itself, or its split path extends the root's split path by a
nonempty chain of well-formed entry names. -/
def Hroot (rootPath absDir : String) : Prop :=
  absDir = rootPath ∨ ∃ chain, chain ≠ [] ∧ (∀ c ∈ chain, goodName c = true) ∧
    pySplitChar absDir '/' = pySplitChar rootPath '/' ++ chain

/-! ## Concrete instances used by the counterexamples and witnesses -/

/-- Concrete external collaborators for the evaluations: fixed checksum,
size, timestamps; no mime guess; only `/pkg/schemas/mets.xsd` exists as a
schema file. -/
def extC : Externals :=
  { sha256 := fun _ => "HASH", getsize := fun _ => 7,
    ctimeIso := fun _ => "2020-01-01T00:00:00", mimeGuess := fun _ => none,
    now := "2020-01-01T00:00:01", isfile := fun p => p == "/pkg/schemas/mets.xsd" }

/-- Concrete generation configuration. -/
def mdC : MetsData :=
  { packageid := "urn:uuid:pkg", ptype := "AIP", schemas := "/pkg/schemas", parent := "" }

/-- Package tree for the nested-descriptor ordering evaluation: one
directory whose enumeration yields `a.txt` before `METS.xml`. -/
def treeC1 : FSTree := .node "" [] [.node "d1" ["a.txt", "METS.xml"] []]

/-- Package tree whose nested `schemas` directory has no corresponding
top-level file group. -/
def treeC7 : FSTree := .node "" [] [.node "foo" [] [.node "schemas" ["x.xsd"] []]]

/-- Package tree for the dominant-group evaluation: one recognized
(`documentation`) and one unrecognized (`d1`) top-level subdirectory, each
with a plain file. -/
def treeC10 : FSTree :=
  .node "" [] [.node "documentation" ["doc.txt"] [], .node "d1" ["a.txt"] []]

/-- An empty generation state (no groups registered). -/
def stEmpty : GenState :=
  { ctr := 0, groupDefs := [], grpOfUse := [], fileSecGids := [], dmdSecs := [],
    amdSec := [], physDivs := [], metadataPtrs := [], schemaPtrs := [], contentPtrs := [],
    filesLog := [] }

/-! # Theorems -/

theorem goUse_eq_find (l : List String) :
    goUse l = ((l.find? (fun d => folders_with_USE.contains d)).getD "other") := by
  induction l with
  | nil => rfl
  | cons d rest ih =>
    cases h : folders_with_USE.contains d with
    | true => rw [goUse, h, List.find?_cons_of_pos _ h]; rfl
    | false =>
      rw [goUse, h, List.find?_cons_of_neg]
      · exact ih
      · simpa using h

/-- Claim C8: the path classifier splits the path into segments, scans them
from the last to the first, returns the first segment among the fixed role
tokens, and returns `other` when no segment matches; it is a total pure
function of the path (so deterministic and non-throwing). -/
theorem C8_path_classifier (path : String) :
    get_folder_with_USE path =
        (((pySplitChar path '/').reverse.find? (fun d => folders_with_USE.contains d)).getD "other")
    ∧ (get_folder_with_USE path ∈ folders_with_USE ∨ get_folder_with_USE path = "other") := by
  refine ⟨goUse_eq_find _, ?_⟩
  rw [get_folder_with_USE]
  generalize (pySplitChar path '/').reverse = l
  induction l with
  | nil => right; rfl
  | cons d rest ih =>
    cases h : folders_with_USE.contains d with
    | true =>
      left
      rw [goUse, h]
      simpa using h
    | false => rw [goUse, h]; exact ih

/-- Claim C8 witness: the classifier at concrete inputs, matching the find?
characterization with discharged (trivial) hypotheses. -/
theorem C8_path_classifier_witness :
    get_folder_with_USE "/pkg/representations/rep1/data" =
        ((((pySplitChar "/pkg/representations/rep1/data" '/')).reverse.find?
            (fun d => folders_with_USE.contains d)).getD "other")
    ∧ (get_folder_with_USE "/pkg/representations/rep1/data" ∈ folders_with_USE
        ∨ get_folder_with_USE "/pkg/representations/rep1/data" = "other") :=
  C8_path_classifier "/pkg/representations/rep1/data"

/-- Claim C5: `get_obj_id` returns the single xpath result when exactly one
value is found and the sentinel `"urn:uuid:none"` when the attribute is
absent or several values are found; `get_package_type` is analogous with
sentinel `"NONE"`; both are total (never throw). -/
theorem C5_sentinel_accessors :
    (∀ a : Option String, ParsedMets.get_obj_id (ParsedMets.xpathAttr a) = a.getD "urn:uuid:none")
    ∧ ParsedMets.get_obj_id [] = "urn:uuid:none"
    ∧ (∀ v : String, ParsedMets.get_obj_id [v] = v)
    ∧ (∀ (v w : String) (r : List String), ParsedMets.get_obj_id (v :: w :: r) = "urn:uuid:none")
    ∧ (∀ a : Option String, ParsedMets.get_package_type (ParsedMets.xpathAttr a) = a.getD "NONE")
    ∧ ParsedMets.get_package_type [] = "NONE"
    ∧ (∀ v : String, ParsedMets.get_package_type [v] = v)
    ∧ (∀ (v w : String) (r : List String), ParsedMets.get_package_type (v :: w :: r) = "NONE") := by
  refine ⟨fun a => ?_, rfl, fun v => rfl, fun v w r => rfl,
    fun a => ?_, rfl, fun v => rfl, fun v w r => rfl⟩
  · cases a <;> rfl
  · cases a <;> rfl

/-- Claim C3 counterexample: on a freshly constructed generator (before any
`createMets` run, so `mets_data` is still `None`), both linker operations
raise a `TypeError` reading `mets_data['type']` — they cannot be invoked
before a generation run without error. -/
theorem C3_counterexample :
    ((setParentRelation ⟨"/pkg", none⟩ "urn:uuid:child-1" ⟨some (.xmlDoc ⟨[]⟩)⟩ 0).1
        = .error "TypeError: NoneType object is not subscriptable")
    ∧ ((addChildRelation ⟨"/pkg", none⟩ "urn:uuid:child-1" ⟨some (.xmlDoc ⟨[]⟩)⟩ 0).1
        = .error "TypeError: NoneType object is not subscriptable") := ⟨rfl, rfl⟩

/-- Claim C3 (amended): the linker operations read the package type from
`mets_data`, which only a prior `createMets` run sets; invoked on a
generator whose `mets_data` is still `None`, both raise a `TypeError`
regardless of the sibling file. -/
theorem C3_requires_generation_state (g : MetsGenerator) (identifier : String)
    (fs : LinkerFS) (ctr : Nat) (h : g.mets_data = none) :
    (setParentRelation g identifier fs ctr).1
        = .error "TypeError: NoneType object is not subscriptable"
    ∧ (addChildRelation g identifier fs ctr).1
        = .error "TypeError: NoneType object is not subscriptable" := by
  unfold setParentRelation addChildRelation
  rw [h]
  exact ⟨rfl, rfl⟩

/-- Claim C3 witness: the amended statement applied at a concrete fresh
generator. -/
theorem C3_requires_generation_state_witness :
    ((⟨"/pkg", none⟩ : MetsGenerator).mets_data = none)
    ∧ ((setParentRelation ⟨"/pkg", none⟩ "urn:uuid:x" ⟨none⟩ 0).1
          = .error "TypeError: NoneType object is not subscriptable"
       ∧ (addChildRelation ⟨"/pkg", none⟩ "urn:uuid:x" ⟨none⟩ 0).1
          = .error "TypeError: NoneType object is not subscriptable") :=
  ⟨rfl, C3_requires_generation_state ⟨"/pkg", none⟩ "urn:uuid:x" ⟨none⟩ 0 rfl⟩

/-- Claim C4 counterexample: a call of `setParentRelation` whose sibling
descriptor does not exist but which runs on a fresh generator raises a
`TypeError` before the existence check — so not *every* call with a missing
sibling returns without error. -/
theorem C4_counterexample :
    (setParentRelation ⟨"/pkg2", none⟩ "urn:uuid:child-1" ⟨none⟩ 0).1
      = .error "TypeError: NoneType object is not subscriptable" := rfl

/-- Claim C4 (amended): when `mets_data` has been set (as after a generation
run) and the sibling descriptor is missing, both linker operations return
without error, write nothing and leave the filesystem and the id counter
unchanged. -/
theorem C4_missing_sibling_noop (g : MetsGenerator) (md : MetsData) (identifier : String)
    (fs : LinkerFS) (ctr : Nat) (hmd : g.mets_data = some md) (hfs : fs.siblingMets = none) :
    setParentRelation g identifier fs ctr = (.ok (), fs, ctr)
    ∧ addChildRelation g identifier fs ctr = (.ok (), fs, ctr) := by
  unfold setParentRelation addChildRelation
  rw [hmd, hfs]
  exact ⟨rfl, rfl⟩

/-- Claim C4 witness: the amended statement applied at a concrete generator
with configuration set and no sibling file. -/
theorem C4_missing_sibling_noop_witness :
    ((⟨"/pkg", some mdC⟩ : MetsGenerator).mets_data = some mdC
      ∧ (⟨none⟩ : LinkerFS).siblingMets = none)
    ∧ (setParentRelation ⟨"/pkg", some mdC⟩ "urn:uuid:x" ⟨none⟩ 3 = (.ok (), ⟨none⟩, 3)
      ∧ addChildRelation ⟨"/pkg", some mdC⟩ "urn:uuid:x" ⟨none⟩ 3 = (.ok (), ⟨none⟩, 3)) :=
  ⟨⟨rfl, rfl⟩, C4_missing_sibling_noop ⟨"/pkg", some mdC⟩ mdC "urn:uuid:x" ⟨none⟩ 3 rfl rfl⟩

/-- Claim C2: with an existing, well-formed sibling descriptor, both linker
operations serialize the updated document with `etree.tostring(...,
encoding='UTF-8')` — which yields `bytes` — and write it into the sibling
opened in text mode: the write raises `TypeError` (instead of terminating
normally), after the `open(..., 'w')` already truncated the sibling file.
`createMets` (line 478) decodes before writing; these two operations omit
the decode. -/
theorem C2_write_type_error :
    (setParentRelation ⟨"/pkg", some mdC⟩ "urn:uuid:child-1" ⟨some (.xmlDoc ⟨[]⟩)⟩ 0
        = (.error "TypeError: write() argument must be str, not bytes", ⟨some .blank⟩, 1))
    ∧ (addChildRelation ⟨"/pkg", some mdC⟩ "urn:uuid:child-1" ⟨some (.xmlDoc ⟨[]⟩)⟩ 0
        = (.error "TypeError: write() argument must be str, not bytes", ⟨some .blank⟩, 1)) :=
  ⟨rfl, rfl⟩

/-- Claim C9: the in-memory document transformation of `addChildRelation`,
applied twice with the same identifier, accumulates two distinct pointer
nodes referencing it while reusing the single `child <type>` structMap
(first conjunct — the documented behaviour the claim describes); the actual
operation, however, fails at the serialization write: the first call raises
`TypeError` after truncating the sibling, and the second call cannot parse
the emptied file. -/
theorem C9_duplicate_links_eval :
    ((childLinkTwice "AIP" "urn:uuid:child-1" ⟨[]⟩).map (fun d =>
        ((d.maps.filter (fun m => m.label == "child AIP")).length,
         d.maps.map (fun m => m.divs.map (fun dv =>
           dv.children.map (fun r => (r.pointer.href, r.pointer.id))))))
      = .ok (1, [[[("urn:uuid:child-1", 0), ("urn:uuid:child-1", 1)]]]))
    ∧ ((addChildRelation ⟨"/pkg", some mdC⟩ "urn:uuid:child-1" ⟨some (.xmlDoc ⟨[]⟩)⟩ 0).1
        = .error "TypeError: write() argument must be str, not bytes")
    ∧ ((addChildRelation ⟨"/pkg", some mdC⟩ "urn:uuid:child-1"
          (addChildRelation ⟨"/pkg", some mdC⟩ "urn:uuid:child-1" ⟨some (.xmlDoc ⟨[]⟩)⟩ 0).2.1 1).1
        = .error "XMLSyntaxError: Document is empty") :=
  ⟨rfl, rfl, rfl⟩

/-- Claim C1: in the generation run over a directory whose file enumeration
yields a regular file before its nested `METS.xml`, the physical division
receives the file pointer first and the package-reference pointer (`mptr`)
only second — the `mptr` is *not* the first child, contradicting the
required ordering (which the source itself asserts in the comment at
line 455). -/
theorem C1_mptr_not_first_eval :
    (createMets extC "/pkg" mdC treeC1).map
        (fun d => d.st.physDivs.map (fun dv => dv.children.map ptrTag))
      = .ok [["fptr", "mptr", "fptr"]] := rfl

/-- Claim C7 counterexample: a file in a nested `schemas` directory whose
role has no registered file group aborts the whole generation with a
`KeyError` (no descriptor is produced) instead of skipping the file — the
per-file skip only protects the generic content branch. -/
theorem C7_counterexample :
    createMets extC "/pkg" mdC treeC7 = .error "KeyError: schemas" := rfl

/-- Claim C6 counterexample: for a package generated with schema folder
`/pkg/schemas` (whose `mets.xsd` exists), resolving the schema location from
the generated descriptor returns `"/pkgschemas/mets.xsd"` — the root
concatenated without separator with the relative schema-file path — which
is not the schema folder `"/pkg/schemas"` used at generation time. -/
theorem C6_counterexample :
    ((createMets extC "/pkg" mdC (FSTree.node "" [] [])).map (fun d =>
        ParsedMets.get_mets_schema_from_schema_location "/pkg" d.schemaLocationAttr)
      = .ok (.ok "/pkgschemas/mets.xsd"))
    ∧ ("/pkgschemas/mets.xsd" : String) ≠ "/pkg/schemas"
    ∧ mdC.schemas = "/pkg/schemas" :=
  ⟨rfl, by decide, rfl⟩

/-- Claim C7 (amended): a failed role lookup in the file-group table is
caught (`except KeyError`), reported and skipped — with generation
continuing unchanged — only in the generic content branch; in the
nested-descriptor (`METS.xml`) branch and in the `schemas` branch the
`KeyError` propagates, aborting the generation, so the per-file skip does
not hold for every classification branch that registers a file. -/
theorem C7_branch_error_handling (ext : Externals)
    (rootPath packageid packagetype absDir : String) (st : GenState) (ch : List Ptr) (pr : Bool)
    (filename : String)
    (hroot : absDir ≠ rootPath)
    (hkey : dictGet st.grpOfUse (get_folder_with_USE absDir) = none) :
    (pyLower filename ≠ "mets.xml" → filename ≠ "" → pyEndswith absDir "schemas" = false →
      processOtherFile ext rootPath packageid packagetype absDir (st, ch, pr) filename
        = .ok (st, ch, pr))
    ∧ (pyLower filename ≠ "mets.xml" → filename ≠ "" → pyEndswith absDir "schemas" = true →
      processOtherFile ext rootPath packageid packagetype absDir (st, ch, pr) filename
        = .error (keyErrMsg (get_folder_with_USE absDir)))
    ∧ (pyLower filename = "mets.xml" →
      processOtherFile ext rootPath packageid packagetype absDir (st, ch, pr) filename
        = .error (keyErrMsg (get_folder_with_USE absDir))) := by
  unfold processOtherFile
  have hbr : (absDir == rootPath) = false := by simpa using hroot
  refine ⟨fun h1 h2 h3 => ?_, fun h1 h2 h3 => ?_, fun h1 => ?_⟩
  · have hb1 : (pyLower filename == "mets.xml") = false := by simpa using h1
    have hb2 : (filename != "") = true := by simpa using h2
    simp [hbr, hb1, hb2, h3, hkey]
  · have hb1 : (pyLower filename == "mets.xml") = false := by simpa using h1
    have hb2 : (filename != "") = true := by simpa using h2
    simp [hbr, hb1, hb2, h3, hkey]
  · have hb1 : (pyLower filename == "mets.xml") = true := by simpa using h1
    simp [hbr, hb1, hkey, fresh]

/-- Claim C7 witness: the amended branch behaviour at a concrete directory
(`/pkg/foo/schemas`) whose role has no registered group. -/
theorem C7_branch_error_handling_witness :
    (("/pkg/foo/schemas" : String) ≠ "/pkg"
      ∧ dictGet stEmpty.grpOfUse (get_folder_with_USE "/pkg/foo/schemas") = none)
    ∧ ((pyLower "x.xsd" ≠ "mets.xml" → "x.xsd" ≠ "" → pyEndswith "/pkg/foo/schemas" "schemas" = false →
        processOtherFile extC "/pkg" "urn:uuid:pkg" "AIP" "/pkg/foo/schemas" (stEmpty, [], false) "x.xsd"
          = .ok (stEmpty, [], false))
      ∧ (pyLower "x.xsd" ≠ "mets.xml" → "x.xsd" ≠ "" → pyEndswith "/pkg/foo/schemas" "schemas" = true →
        processOtherFile extC "/pkg" "urn:uuid:pkg" "AIP" "/pkg/foo/schemas" (stEmpty, [], false) "x.xsd"
          = .error (keyErrMsg (get_folder_with_USE "/pkg/foo/schemas")))
      ∧ (pyLower "x.xsd" = "mets.xml" →
        processOtherFile extC "/pkg" "urn:uuid:pkg" "AIP" "/pkg/foo/schemas" (stEmpty, [], false) "x.xsd"
          = .error (keyErrMsg (get_folder_with_USE "/pkg/foo/schemas")))) :=
  ⟨⟨by decide, rfl⟩,
    C7_branch_error_handling extC "/pkg" "urn:uuid:pkg" "AIP" "/pkg/foo/schemas" stEmpty [] false
      "x.xsd" (by decide) rfl⟩

theorem pySplitAux_no_sep_append (sep : Char) (rest : List Char) :
    ∀ cs acc : List Char, (∀ c ∈ cs, c ≠ sep) →
      pySplitAux sep (cs ++ sep :: rest) acc
        = String.mk (acc.reverse ++ cs) :: pySplitAux sep rest [] := by
  intro cs
  induction cs with
  | nil =>
    intro acc _
    simp [pySplitAux]
  | cons c cs ih =>
    intro acc h
    have hc : c ≠ sep := h c (List.mem_cons_self _ _)
    have h2 := ih (c :: acc) (fun x hx => h x (List.mem_cons_of_mem _ hx))
    simp only [List.cons_append, pySplitAux, if_neg hc, List.append_eq]
    rw [h2]
    simp

theorem pySplit_cons_of_no_sep (a r : String) (ha : ∀ c ∈ a.data, c ≠ ' ') :
    pySplitChar (a ++ " " ++ r) ' ' = a :: pySplitChar r ' ' := by
  unfold pySplitChar
  have hd : (a ++ " " ++ r).data = a.data ++ ' ' :: r.data := by
    show a.data ++ " ".data ++ r.data = _
    simp
  rw [hd, pySplitAux_no_sep_append ' ' r.data a.data [] ha]
  simp

theorem pySplit_schemaLocAttr (loc rest : String) (hloc : ∀ c ∈ loc.data, c ≠ ' ') :
    pySplitChar (METS_NS ++ " " ++ loc ++ " " ++ rest) ' '
      = METS_NS :: loc :: pySplitChar rest ' ' := by
  have h1 : METS_NS ++ " " ++ loc ++ " " ++ rest = METS_NS ++ " " ++ (loc ++ " " ++ rest) := by
    simp [String.append_assoc]
  rw [h1, pySplit_cons_of_no_sep METS_NS _ (by decide), pySplit_cons_of_no_sep loc rest hloc]

theorem foldlM_schemaLoc_keep (root loc : String) (rest' : List String) :
    ∀ l : List String,
      l.foldlM (ParsedMets.schemaLocStep root (ParsedMets.METS_NS :: loc :: rest'))
        (root ++ loc) = .ok (root ++ loc) := by
  intro l
  induction l with
  | nil => rfl
  | cons t ts ih =>
    by_cases ht : t = ParsedMets.METS_NS
    · subst ht
      have hstep : ParsedMets.schemaLocStep root (ParsedMets.METS_NS :: loc :: rest')
          (root ++ loc) ParsedMets.METS_NS = .ok (root ++ loc) := rfl
      have hfold : List.foldlM
          (ParsedMets.schemaLocStep root (ParsedMets.METS_NS :: loc :: rest'))
          (root ++ loc) (ParsedMets.METS_NS :: ts)
          = ParsedMets.schemaLocStep root (ParsedMets.METS_NS :: loc :: rest') (root ++ loc)
              ParsedMets.METS_NS
              >>= fun b => List.foldlM
                (ParsedMets.schemaLocStep root (ParsedMets.METS_NS :: loc :: rest')) b ts := rfl
      rw [hfold, hstep]
      exact ih
    · have hb : (t == ParsedMets.METS_NS) = false := by
        simpa using ht
      have hstep : ParsedMets.schemaLocStep root (ParsedMets.METS_NS :: loc :: rest')
          (root ++ loc) t = .ok (root ++ loc) := by
        unfold ParsedMets.schemaLocStep
        rw [hb]
        rfl
      have hfold : List.foldlM
          (ParsedMets.schemaLocStep root (ParsedMets.METS_NS :: loc :: rest'))
          (root ++ loc) (t :: ts)
          = ParsedMets.schemaLocStep root (ParsedMets.METS_NS :: loc :: rest') (root ++ loc) t
              >>= fun b => List.foldlM
                (ParsedMets.schemaLocStep root (ParsedMets.METS_NS :: loc :: rest')) b ts := rfl
      rw [hfold, hstep]
      exact ih

theorem reader_recovers_second_token (root attr loc : String) (rest' : List String)
    (hsplit : pySplitChar attr ' ' = ParsedMets.METS_NS :: loc :: rest') :
    ParsedMets.get_mets_schema_from_schema_location root attr = .ok (root ++ loc) := by
  have h1 : ParsedMets.get_mets_schema_from_schema_location root attr
      = List.foldlM (ParsedMets.schemaLocStep root (ParsedMets.METS_NS :: loc :: rest')) ""
          (ParsedMets.METS_NS :: loc :: rest') := by
    unfold ParsedMets.get_mets_schema_from_schema_location
    rw [hsplit]
  have h2 : List.foldlM (ParsedMets.schemaLocStep root (ParsedMets.METS_NS :: loc :: rest')) ""
        (ParsedMets.METS_NS :: loc :: rest')
      = List.foldlM (ParsedMets.schemaLocStep root (ParsedMets.METS_NS :: loc :: rest'))
          (root ++ loc) (loc :: rest') := rfl
  rw [h1, h2]
  exact foldlM_schemaLoc_keep root loc rest' (loc :: rest')

theorem createMets_schemaLoc (ext : Externals) (rootPath : String) (md : MetsData)
    (tree : FSTree) (s : String)
    (hs : docSchemaLoc (createMets ext rootPath md tree) = some s) :
    s = schemaLocationAttrOf ext rootPath md.schemas := by
  unfold createMets at hs
  dsimp only at hs
  split at hs
  · exact absurd hs (by simp [docSchemaLoc])
  · simp [docSchemaLoc] at hs
    exact hs.symm

/-- Claim C6 (amended): applying `resolveSchemaLocation` with the same
package root to a generated descriptor returns the *schema-file location*
recorded at generation time, prefixed — without any path separator — with
the package root: `root_dir ++ relpath(schemafolder/mets.xsd, root)` (when
`mets.xsd` exists in the schema folder and its relative path contains no
space).  It is not the schema folder path itself. -/
theorem C6_schema_location_roundtrip (ext : Externals) (rootPath : String) (md : MetsData)
    (tree : FSTree)
    (hfile : ext.isfile (md.schemas ++ "/mets.xsd") = true)
    (hnospace : ∀ c ∈ (relpath (md.schemas ++ "/mets.xsd") rootPath).data, c ≠ ' ') :
    ∀ s, docSchemaLoc (createMets ext rootPath md tree) = some s →
      ParsedMets.get_mets_schema_from_schema_location rootPath s
        = .ok (rootPath ++ relpath (md.schemas ++ "/mets.xsd") rootPath) := by
  intro s hs
  have hshape := createMets_schemaLoc ext rootPath md tree s hs
  have hloc : mets_schema_location_of ext rootPath md.schemas
      = relpath (md.schemas ++ "/mets.xsd") rootPath := by
    unfold mets_schema_location_of
    rw [hfile]
    rfl
  rw [schemaLocationAttrOf, hloc] at hshape
  have hgrp : METS_NS ++ " " ++ relpath (md.schemas ++ "/mets.xsd") rootPath ++ " " ++ XLINK_NS
        ++ " " ++ xlink_schema_location_of ext rootPath md.schemas ++ " " ++ CSIP_NS ++ " "
        ++ default_csip_location
      = METS_NS ++ " " ++ relpath (md.schemas ++ "/mets.xsd") rootPath ++ " "
        ++ (XLINK_NS ++ " " ++ xlink_schema_location_of ext rootPath md.schemas ++ " "
            ++ CSIP_NS ++ " " ++ default_csip_location) := by
    simp [String.append_assoc]
  rw [hgrp] at hshape
  subst hshape
  exact reader_recovers_second_token rootPath _ _ _
    (pySplit_schemaLocAttr (relpath (md.schemas ++ "/mets.xsd") rootPath)
      (XLINK_NS ++ " " ++ xlink_schema_location_of ext rootPath md.schemas ++ " "
        ++ CSIP_NS ++ " " ++ default_csip_location) hnospace)

theorem pySplitAux_append (sep : Char) :
    ∀ cs rest acc : List Char,
      pySplitAux sep (cs ++ sep :: rest) acc
        = pySplitAux sep cs acc ++ pySplitAux sep rest [] := by
  intro cs
  induction cs with
  | nil =>
    intro rest acc
    simp [pySplitAux]
  | cons c cs ih =>
    intro rest acc
    by_cases hc : c = sep
    · subst hc
      simp only [List.cons_append, pySplitAux, eq_self_iff_true, if_true, List.append_eq]
      rw [ih rest []]
    · simp only [List.cons_append, pySplitAux, if_neg hc]
      exact ih rest (c :: acc)

theorem pySplit_slash_append (a b : String) :
    pySplitChar (a ++ "/" ++ b) '/' = pySplitChar a '/' ++ pySplitChar b '/' := by
  unfold pySplitChar
  have hd : (a ++ "/" ++ b).data = a.data ++ '/' :: b.data := by
    show a.data ++ "/".data ++ b.data = _
    simp
  rw [hd, pySplitAux_append]

theorem pySplitAux_no_sep (sep : Char) :
    ∀ cs acc : List Char, (∀ c ∈ cs, c ≠ sep) →
      pySplitAux sep cs acc = [String.mk (acc.reverse ++ cs)] := by
  intro cs
  induction cs with
  | nil =>
    intro acc _
    simp [pySplitAux]
  | cons c cs ih =>
    intro acc h
    have hc : c ≠ sep := h c (List.mem_cons_self _ _)
    have h2 := ih (c :: acc) (fun x hx => h x (List.mem_cons_of_mem _ hx))
    simp only [pySplitAux, if_neg hc]
    rw [h2]
    simp

theorem goodName_split (c : String) (h : goodName c = true) :
    pySplitChar c '/' = [c] := by
  unfold goodName at h
  simp only [Bool.and_eq_true, bne_iff_ne, ne_eq, Bool.not_eq_true'] at h
  have hns : ∀ x ∈ c.data, x ≠ '/' := by
    intro x hx he
    have hmem : ('/' : Char) ∈ c.data := he ▸ hx
    have hc2 : c.data.contains '/' = true := by simpa using hmem
    rw [h.1.2] at hc2
    cases hc2
  unfold pySplitChar
  rw [pySplitAux_no_sep '/' c.data [] hns]
  simp

theorem commonPrefixLen_append : ∀ l m : List String, commonPrefixLen (l ++ m) l = l.length := by
  intro l m
  induction l with
  | nil => cases m <;> rfl
  | cons a l ih => simp [commonPrefixLen, ih]

theorem relpath_self (p : String) : relpath p p = "." := by
  unfold relpath
  have h := commonPrefixLen_append (pySplitChar p '/') []
  rw [List.append_nil] at h
  simp [h, List.drop_length]

theorem joinSep_chain_ne_dot (chain : List String) (hchain : chain ≠ [])
    (hgood : ∀ c ∈ chain, goodName c = true) : joinSep "/" chain ≠ "." := by
  cases chain with
  | nil => exact absurd rfl hchain
  | cons c rest =>
    have hg := hgood c (List.mem_cons_self _ _)
    unfold goodName at hg
    simp only [Bool.and_eq_true, bne_iff_ne, ne_eq, Bool.not_eq_true'] at hg
    cases rest with
    | nil =>
      simpa [joinSep] using hg.2
    | cons c2 r2 =>
      intro he
      have hc : c.data ≠ [] := fun hnil => hg.1.1 (String.ext hnil)
      have hcpos : 0 < c.data.length := List.length_pos.mpr hc
      have h2 : (joinSep "/" (c :: c2 :: r2)).data
          = c.data ++ '/' :: (joinSep "/" (c2 :: r2)).data := by
        show (c ++ "/" ++ joinSep "/" (c2 :: r2)).data = _
        show c.data ++ "/".data ++ _ = _
        simp
      rw [he] at h2
      have h3 : (".").data.length
          = (c.data ++ '/' :: (joinSep "/" (c2 :: r2)).data).length := by rw [h2]
      have h4 : (".").data.length = 1 := rfl
      rw [h4, List.length_append, List.length_cons] at h3
      omega

theorem relpath_chain_ne_dot (root absDir : String) (chain : List String)
    (hchain : chain ≠ []) (hgood : ∀ c ∈ chain, goodName c = true)
    (hsplit : pySplitChar absDir '/' = pySplitChar root '/' ++ chain) :
    relpath absDir root ≠ "." := by
  unfold relpath
  simp only [hsplit, commonPrefixLen_append, Nat.sub_self, List.replicate_zero,
    List.nil_append, List.drop_left]
  have hne : chain.isEmpty = false := by
    cases chain with
    | nil => exact absurd rfl hchain
    | cons _ _ => rfl
  rw [hne]
  simp only [Bool.false_eq_true, if_false]
  exact joinSep_chain_ne_dot chain hchain hgood

theorem Hroot_child (root absParent name : String) (h : Hroot root absParent)
    (hg : goodName name = true) : Hroot root (absParent ++ "/" ++ name) := by
  right
  cases h with
  | inl he =>
    subst he
    exact ⟨[name], by simp, by simp [hg], by rw [pySplit_slash_append, goodName_split _ hg]⟩
  | inr hc =>
    obtain ⟨chain, hne, hgood, hs⟩ := hc
    refine ⟨chain ++ [name], by simp, ?_, ?_⟩
    · intro c hcm
      rcases List.mem_append.mp hcm with hcl | hcr
      · exact hgood c hcl
      · rw [List.mem_singleton.mp hcr]
        exact hg
    · rw [pySplit_slash_append, goodName_split _ hg, hs, List.append_assoc]

theorem Hroot_eq_of_dot (root absDir : String) (h : Hroot root absDir)
    (hdot : relpath absDir root = ".") : absDir = root := by
  cases h with
  | inl he => exact he
  | inr hc =>
    obtain ⟨chain, hne, hgood, hs⟩ := hc
    exact absurd hdot (relpath_chain_ne_dot root absDir chain hne hgood hs)

theorem except_bind_ok {α β : Type} (a : α) (f : α → Except String β) :
    (Except.ok a >>= f) = f a := rfl

theorem except_bind_error {α β : Type} (e : String) (f : α → Except String β) :
    ((Except.error e : Except String α) >>= f) = Except.error e := rfl

theorem stableGroups_refl (a : GenState) : stableGroups a a := ⟨rfl, rfl, rfl⟩

theorem stableGroups_trans {a b c : GenState} (h1 : stableGroups a b) (h2 : stableGroups b c) :
    stableGroups a c :=
  ⟨h2.1.trans h1.1, h2.2.1.trans h1.2.1, h2.2.2.trans h1.2.2⟩

theorem stepOk_refl (a : GenState × List Ptr × Bool) : stepOk a a :=
  ⟨stableGroups_refl _, rfl, le_refl _, id, id⟩

theorem stepOk_trans {a b c : GenState × List Ptr × Bool} (h1 : stepOk a b) (h2 : stepOk b c) :
    stepOk a c := by
  obtain ⟨sg1, hp1, hc1, hi1, hv1⟩ := h1
  obtain ⟨sg2, hp2, hc2, hi2, hv2⟩ := h2
  exact ⟨stableGroups_trans sg1 sg2, hp2.trans hp1, le_trans hc1 hc2,
    fun h => hi2 (hi1 h), fun h => hv2 (hv1 h)⟩

theorem stepOk_of_parts {st st' : GenState} {ch ch' : List Ptr} {pr pr' : Bool}
    (hg : stableGroups st st') (hp : st'.physDivs = st.physDivs) (hc : st.ctr ≤ st'.ctr)
    (hlog : st'.filesLog = st.filesLog ∨
      ∃ gf : Nat × MetsFile, st'.filesLog = st.filesLog ++ [gf] ∧ st.ctr ≤ gf.2.id
        ∧ gf.2.id < st'.ctr ∧ Ptr.fptr gf.2.id ∈ ch')
    (hch : ∀ p ∈ ch, p ∈ ch') :
    stepOk (st, ch, pr) (st', ch', pr') := by
  unfold stepOk IdsOk LogCovCh
  dsimp only
  refine ⟨hg, hp, hc, ?_, ?_⟩
  · rintro ⟨hbound, hnodup⟩
    rcases hlog with he | ⟨gf, hlg, hge, hlt, _⟩
    · rw [he]
      exact ⟨fun p hp2 => lt_of_lt_of_le (hbound p hp2) hc, hnodup⟩
    · constructor
      · intro p hp2
        rw [hlg] at hp2
        rcases List.mem_append.mp hp2 with hold | hnew
        · exact lt_of_lt_of_le (hbound p hold) hc
        · rw [List.mem_singleton.mp hnew]
          exact hlt
      · rw [hlg, List.map_append]
        simp only [List.map_cons, List.map_nil]
        refine hnodup.append (List.nodup_singleton _) ?_
        intro x hx hx2
        rcases List.mem_map.mp hx with ⟨p, hpmem, hpid⟩
        have h1 : x < st.ctr := hpid ▸ hbound p hpmem
        have h2 : st.ctr ≤ x := by
          rw [List.mem_singleton.mp hx2]
          exact hge
        omega
  · intro hcov p hp2
    rcases hlog with he | ⟨gf, hlg, hge, hlt, hfm⟩
    · rw [he] at hp2
      rcases hcov p hp2 with hdiv | hchm
      · left
        rw [hp]
        exact hdiv
      · right
        exact hch _ hchm
    · rw [hlg] at hp2
      rcases List.mem_append.mp hp2 with hold | hnew
      · rcases hcov p hold with hdiv | hchm
        · left
          rw [hp]
          exact hdiv
        · right
          exact hch _ hchm
      · right
        rw [List.mem_singleton.mp hnew]
        exact hfm

theorem addFile_eq (ext : Externals) (rootPath fileName : String) (gid : Nat) (st : GenState) :
    addFile ext rootPath fileName gid st
      = (st.ctr, { st with ctr := st.ctr + 1, filesLog := st.filesLog ++
          [(gid, { mimetype := (ext.mimeGuess (relpath fileName rootPath)).getD
                     "application/octet-stream",
                   checksumtype := "SHA-256", created := ext.ctimeIso fileName,
                   checksum := ext.sha256 fileName, use := "Datafile", id := st.ctr,
                   size := ext.getsize fileName, href := relpath fileName rootPath })] }) := rfl

theorem processOtherFile_at_root (ext : Externals) (rootPath packageid packagetype : String)
    (acc : GenState × List Ptr × Bool) (filename : String) :
    processOtherFile ext rootPath packageid packagetype rootPath acc filename = .ok acc := by
  obtain ⟨st, ch, pr⟩ := acc
  unfold processOtherFile
  simp

theorem processOtherFile_stepOk (ext : Externals)
    (rootPath packageid packagetype absDir : String)
    (acc b : GenState × List Ptr × Bool) (filename : String)
    (h : processOtherFile ext rootPath packageid packagetype absDir acc filename = .ok b) :
    stepOk acc b := by
  obtain ⟨st, ch, pr⟩ := acc
  unfold processOtherFile at h
  simp only [fresh, addFile_eq] at h
  split at h
  · cases h
    exact stepOk_refl _
  · split at h
    · -- METS.xml branch
      split at h
      · exact (Except.noConfusion h)
      · cases h
        refine stepOk_of_parts ⟨rfl, rfl, rfl⟩ rfl ?_ (Or.inr ⟨_, rfl, ?_, ?_, ?_⟩) ?_
        · dsimp only
          omega
        · dsimp only
          omega
        · dsimp only
          omega
        · simp
        · intro p hp
          simp [hp]
    · split at h
      · -- schemas branch
        split at h
        · exact (Except.noConfusion h)
        · cases h
          refine stepOk_of_parts ⟨rfl, rfl, rfl⟩ rfl ?_ (Or.inr ⟨_, rfl, ?_, ?_, ?_⟩) ?_
          · dsimp only
            omega
          · dsimp only
            omega
          · dsimp only
            omega
          · simp
          · intro p hp
            simp [hp]
      · split at h
        · -- generic content branch
          split at h
          · cases h
            exact stepOk_refl _
          · cases h
            refine stepOk_of_parts ⟨rfl, rfl, rfl⟩ rfl ?_ (Or.inr ⟨_, rfl, ?_, ?_, ?_⟩) ?_
            · dsimp only
              omega
            · dsimp only
              omega
            · dsimp only
              omega
            · simp
            · intro p hp
              simp [hp]
        · cases h
          exact stepOk_refl _

theorem foldlM_stepOk
    {f : (GenState × List Ptr × Bool) → String → Except String (GenState × List Ptr × Bool)}
    (hf : ∀ a x b, f a x = .ok b → stepOk a b) :
    ∀ (l : List String) (a b), List.foldlM f a l = .ok b → stepOk a b := by
  intro l
  induction l with
  | nil =>
    intro a b h
    have h' : Except.ok a = Except.ok b := h
    cases h'
    exact stepOk_refl _
  | cons x xs ih =>
    intro a b h
    have hcons : List.foldlM f a (x :: xs)
        = f a x >>= fun a' => List.foldlM f a' xs := rfl
    rw [hcons] at h
    cases hfx : f a x with
    | error e =>
      rw [hfx, except_bind_error] at h
      exact Except.noConfusion h
    | ok a' =>
      rw [hfx, except_bind_ok] at h
      exact stepOk_trans (hf a x a' hfx) (ih a' b h)

theorem foldlM_const_ok {α β : Type} {f : β → α → Except String β}
    (hf : ∀ b x, f b x = .ok b) :
    ∀ (l : List α) (b), List.foldlM f b l = .ok b := by
  intro l
  induction l with
  | nil => intro b; rfl
  | cons x xs ih =>
    intro b
    have hcons : List.foldlM f b (x :: xs) = f b x >>= fun b' => List.foldlM f b' xs := rfl
    rw [hcons, hf b x, except_bind_ok]
    exact ih b

theorem mdEvolve_refl (a : GenState × List Ptr) : mdEvolve a a :=
  ⟨rfl, rfl, stableGroups_refl _, le_refl _, [], by simp⟩

theorem mdEvolve_trans {a b c : GenState × List Ptr} (h1 : mdEvolve a b) (h2 : mdEvolve b c) :
    mdEvolve a c := by
  obtain ⟨hl1, hp1, hg1, hc1, s1, hs1⟩ := h1
  obtain ⟨hl2, hp2, hg2, hc2, s2, hs2⟩ := h2
  exact ⟨hl2.trans hl1, hp2.trans hp1, stableGroups_trans hg1 hg2, le_trans hc1 hc2,
    s1 ++ s2, by rw [hs2, hs1, List.append_assoc]⟩

theorem conduitStep_mdEvolve (ext : Externals) (rootPath absDir : String)
    (acc : GenState × List Ptr) (filename : String) :
    mdEvolve acc (conduitStep ext rootPath absDir acc filename) := by
  obtain ⟨st, ch⟩ := acc
  unfold conduitStep mdEvolve
  simp only [fresh]
  split
  · exact ⟨rfl, rfl, ⟨rfl, rfl, rfl⟩, by dsimp only; omega, [Ptr.fptr (st.ctr + 1)], rfl⟩
  · exact mdEvolve_refl _

theorem processMigFile_mdEvolve (ext : Externals) (rootPath dir : String)
    (acc : GenState × List Ptr) (filename : String) :
    mdEvolve acc (processMigFile ext rootPath dir acc filename) := by
  obtain ⟨st, ch⟩ := acc
  unfold processMigFile mdEvolve
  simp only [fresh]
  split
  · exact ⟨rfl, rfl, ⟨rfl, rfl, rfl⟩, by dsimp only; omega, [Ptr.fptr (st.ctr + 1)], rfl⟩
  · split
    · exact ⟨rfl, rfl, ⟨rfl, rfl, rfl⟩, by dsimp only; omega, [Ptr.fptr (st.ctr + 1)], rfl⟩
    · exact mdEvolve_refl _

theorem processNonMigFile_mdEvolve (ext : Externals) (rootPath dir dirname : String)
    (acc : GenState × List Ptr) (filename : String) :
    mdEvolve acc (processNonMigFile ext rootPath dir dirname acc filename) := by
  obtain ⟨st, ch⟩ := acc
  unfold processNonMigFile mdEvolve
  simp only [fresh]
  split
  · exact ⟨rfl, rfl, ⟨rfl, rfl, rfl⟩, by dsimp only; omega, [Ptr.fptr (st.ctr + 1)], rfl⟩
  · split
    · exact ⟨rfl, rfl, ⟨rfl, rfl, rfl⟩, by dsimp only; omega, [Ptr.fptr (st.ctr + 1)], rfl⟩
    · exact mdEvolve_refl _

theorem foldl_mdEvolve {α : Type} (f : (GenState × List Ptr) → α → (GenState × List Ptr))
    (hf : ∀ a x, mdEvolve a (f a x)) :
    ∀ (l : List α) (a), mdEvolve a (List.foldl f a l) := by
  intro l
  induction l with
  | nil => intro a; exact mdEvolve_refl a
  | cons x xs ih => intro a; exact mdEvolve_trans (hf a x) (ih (f a x))

theorem processMetadataDir_mdEvolve (ext : Externals) (rootTree : FSTree) (rootPath : String)
    (metaTree : FSTree) (absDir : String) (acc : GenState × List Ptr) :
    mdEvolve acc (processMetadataDir ext rootTree rootPath metaTree absDir acc) := by
  unfold processMetadataDir
  apply foldl_mdEvolve
  intro a dirname
  split
  · split
    · exact mdEvolve_refl _
    · split
      · exact mdEvolve_refl _
      · apply foldl_mdEvolve
        intro a2 p
        apply foldl_mdEvolve
        intro a3 fn
        exact processMigFile_mdEvolve ext rootPath p.1 a3 fn
  · split
    · exact mdEvolve_refl _
    · apply foldl_mdEvolve
      intro a2 p
      split
      · apply foldl_mdEvolve
        intro a3 fn
        exact processNonMigFile_mdEvolve ext rootPath p.1 dirname a3 fn
      · exact mdEvolve_refl _

theorem appendDiv_fields (st2 : GenState) (mdiv : Option (String × Nat)) (ch : List Ptr) :
    (appendDiv st2 mdiv ch).filesLog = st2.filesLog
    ∧ (appendDiv st2 mdiv ch).groupDefs = st2.groupDefs
    ∧ (appendDiv st2 mdiv ch).grpOfUse = st2.grpOfUse
    ∧ (appendDiv st2 mdiv ch).fileSecGids = st2.fileSecGids
    ∧ (appendDiv st2 mdiv ch).ctr = st2.ctr
    ∧ ∃ sfx : List PhysDiv, (appendDiv st2 mdiv ch).physDivs = st2.physDivs ++ sfx := by
  cases mdiv with
  | none => exact ⟨rfl, rfl, rfl, rfl, rfl, [], by simp [appendDiv]⟩
  | some p =>
    obtain ⟨lbl, did⟩ := p
    exact ⟨rfl, rfl, rfl, rfl, rfl, [⟨lbl, did, ch⟩], rfl⟩

theorem mdish_conclusion (st base : GenState) (mdiv : Option (String × Nat))
    (acc2 : GenState × List Ptr)
    (hbase : base.filesLog = st.filesLog ∧ base.physDivs = st.physDivs
      ∧ stableGroups st base ∧ st.ctr ≤ base.ctr)
    (hmd : mdEvolve (base, ([] : List Ptr)) acc2)
    (hids : IdsOk st) (hcov : LogCov st) :
    stableGroups st (appendDiv acc2.1 mdiv acc2.2)
      ∧ IdsOk (appendDiv acc2.1 mdiv acc2.2) ∧ LogCov (appendDiv acc2.1 mdiv acc2.2) := by
  obtain ⟨hLb, hPb, hGb, hCb⟩ := hbase
  obtain ⟨hl, hp, hg, hc, sfx, -⟩ := hmd
  dsimp only at hl hp hg hc
  obtain ⟨hA1, hA2, hA3, hA4, hA5, sfx2, hA6⟩ := appendDiv_fields acc2.1 mdiv acc2.2
  refine ⟨?_, ?_, ?_⟩
  · exact ⟨hA2.trans (hg.1.trans hGb.1), hA3.trans (hg.2.1.trans hGb.2.1),
      hA4.trans (hg.2.2.trans hGb.2.2)⟩
  · obtain ⟨hbound, hnodup⟩ := hids
    constructor
    · intro p hpm
      rw [hA1, hl, hLb] at hpm
      calc p.2.id < st.ctr := hbound p hpm
        _ ≤ base.ctr := hCb
        _ ≤ acc2.1.ctr := hc
        _ = (appendDiv acc2.1 mdiv acc2.2).ctr := hA5.symm
    · rw [hA1, hl, hLb]
      exact hnodup
  · intro p hpm
    rw [hA1, hl, hLb] at hpm
    obtain ⟨d, hd, hdm⟩ := hcov p hpm
    refine ⟨d, ?_, hdm⟩
    rw [hA6, hp, hPb]
    exact List.mem_append_left _ hd

theorem fold_conclusion_some (st base st1 : GenState) (ch : List Ptr)
    (lbl : String) (did : Nat) (mp : Bool)
    (hbase : base.filesLog = st.filesLog ∧ base.physDivs = st.physDivs
      ∧ stableGroups st base ∧ st.ctr ≤ base.ctr)
    (hstep : stepOk (base, ([] : List Ptr), false) (st1, ch, mp))
    (hids : IdsOk st) (hcov : LogCov st) :
    stableGroups st (appendDiv st1 (some (lbl, did)) ch)
      ∧ IdsOk (appendDiv st1 (some (lbl, did)) ch)
      ∧ LogCov (appendDiv st1 (some (lbl, did)) ch) := by
  obtain ⟨hLb, hPb, hGb, hCb⟩ := hbase
  obtain ⟨hg, hphys, hctr, hI, hC⟩ := hstep
  dsimp only at hg hphys hctr hI hC
  have hidsb : IdsOk base := by
    obtain ⟨hbound, hnodup⟩ := hids
    constructor
    · intro p hpm
      rw [hLb] at hpm
      exact lt_of_lt_of_le (hbound p hpm) hCb
    · rw [hLb]
      exact hnodup
  have hcovb : LogCovCh base [] := by
    intro p hpm
    left
    rw [hLb] at hpm
    obtain ⟨d, hd, hdm⟩ := hcov p hpm
    exact ⟨d, hPb ▸ hd, hdm⟩
  have hids1 : IdsOk st1 := hI hidsb
  have hcov1 : LogCovCh st1 ch := hC hcovb
  refine ⟨?_, ?_, ?_⟩
  · exact ⟨hg.1.trans hGb.1, hg.2.1.trans hGb.2.1, hg.2.2.trans hGb.2.2⟩
  · exact hids1
  · intro p hpm
    have hpm1 : p ∈ st1.filesLog := hpm
    rcases hcov1 p hpm1 with ⟨d, hd, hdm⟩ | hchm
    · exact ⟨d, List.mem_append_left _ hd, hdm⟩
    · exact ⟨⟨lbl, did, ch⟩, List.mem_append_right _ (List.mem_singleton_self _), hchm⟩

theorem processDir_master (ext : Externals) (rootTree : FSTree)
    (rootPath packageid packagetype absDir : String) (t : FSTree) (st st' : GenState)
    (pruned : Bool)
    (h : processDir ext rootTree rootPath packageid packagetype absDir t st = .ok (st', pruned))
    (hroot : Hroot rootPath absDir)
    (hids : IdsOk st) (hcov : LogCov st) :
    stableGroups st st' ∧ IdsOk st' ∧ LogCov st' := by
  unfold processDir at h
  dsimp only at h
  split at h
  · cases h
    exact ⟨stableGroups_refl _, hids, hcov⟩
  · split at h
    · -- <root>/metadata branch
      split at h
      · -- a physical div is created
        cases h
        refine mdish_conclusion st (fresh st).2 _ _
          ⟨rfl, rfl, ⟨rfl, rfl, rfl⟩, by dsimp only [fresh]; omega⟩
          (mdEvolve_trans
            (foldl_mdEvolve _ (conduitStep_mdEvolve ext rootPath absDir) _ _)
            (processMetadataDir_mdEvolve ext rootTree rootPath t absDir _))
          hids hcov
      · -- no physical div (package root)
        cases h
        refine mdish_conclusion st st _ _
          ⟨rfl, rfl, ⟨rfl, rfl, rfl⟩, le_refl _⟩
          (mdEvolve_trans
            (foldl_mdEvolve _ (conduitStep_mdEvolve ext rootPath absDir) _ _)
            (processMetadataDir_mdEvolve ext rootTree rootPath t absDir _))
          hids hcov
    · -- ordinary directory
      split at h
      · exact (Except.noConfusion h)
      all_goals
        rename_i x st1 ch mp hfold
        cases h
        by_cases hdot : (relpath absDir rootPath != ".") = true
        case pos =>
          simp only [if_pos hdot] at hfold ⊢
          exact fold_conclusion_some st (fresh st).2 st1 ch _ _ _
            ⟨rfl, rfl, ⟨rfl, rfl, rfl⟩, by dsimp only [fresh]; omega⟩
            (foldlM_stepOk
              (fun a x b hh =>
                processOtherFile_stepOk ext rootPath packageid packagetype absDir a b x hh)
              _ _ _ hfold)
            hids hcov
        case neg =>
          have hdot2 : relpath absDir rootPath = "." := by
            simpa using hdot
          have habs : absDir = rootPath := Hroot_eq_of_dot rootPath absDir hroot hdot2
          simp only [if_neg hdot] at hfold ⊢
          have hconst : List.foldlM
              (processOtherFile ext rootPath packageid packagetype absDir)
              (st, ([] : List Ptr), false)
              (if pyEndswith absDir "/metadata" = true then [] else t.files)
              = .ok (st, ([] : List Ptr), false) := by
            apply foldlM_const_ok
            intro b x
            rw [habs]
            exact processOtherFile_at_root ext rootPath packageid packagetype b x
          rw [hconst] at hfold
          cases hfold
          exact ⟨stableGroups_refl _, hids, hcov⟩

theorem walk_master (ext : Externals) (rootTree : FSTree)
    (rootPath packageid packagetype : String) :
    ∀ (t : FSTree) (absDir : String) (st st' : GenState),
      walkDir ext rootTree rootPath packageid packagetype t absDir st = .ok st' →
      Hroot rootPath absDir → FSTree.wf t = true → IdsOk st → LogCov st →
      stableGroups st st' ∧ IdsOk st' ∧ LogCov st' := by
  intro t absDir st
  refine walkDir.induct ext rootTree rootPath packageid packagetype
    (fun t absDir st => ∀ st',
      walkDir ext rootTree rootPath packageid packagetype t absDir st = .ok st' →
      Hroot rootPath absDir → FSTree.wf t = true → IdsOk st → LogCov st →
      stableGroups st st' ∧ IdsOk st' ∧ LogCov st')
    (fun us absParent st => ∀ st',
      walkSubs ext rootTree rootPath packageid packagetype us absParent st = .ok st' →
      Hroot rootPath absParent → FSTree.wfList us = true → IdsOk st → LogCov st →
      stableGroups st st' ∧ IdsOk st' ∧ LogCov st')
    ?_ ?_ ?_ ?_ ?_ ?_ t absDir st
  · intro name files subs absDir st e hpe st' hw hroot hwf hids hcov
    unfold walkDir at hw
    rw [hpe] at hw
    exact (Except.noConfusion hw)
  · intro name files subs absDir st stMid hpd st' hw hroot hwf hids hcov
    unfold walkDir at hw
    rw [hpd] at hw
    have hw2 : Except.ok stMid = Except.ok st' := hw
    cases hw2
    exact processDir_master ext rootTree rootPath packageid packagetype absDir
      (FSTree.node name files subs) st _ true hpd hroot hids hcov
  · intro name files subs absDir st stMid pruned hpd hpr ih st' hw hroot hwf hids hcov
    unfold walkDir at hw
    rw [hpd] at hw
    have hprf : pruned = false := by
      cases pruned
      · rfl
      · exact absurd rfl hpr
    subst hprf
    have hw2 : walkSubs ext rootTree rootPath packageid packagetype subs absDir stMid
        = .ok st' := hw
    have h1 := processDir_master ext rootTree rootPath packageid packagetype absDir
      (FSTree.node name files subs) st stMid false hpd hroot hids hcov
    have hwfl : FSTree.wfList subs = true := hwf
    have h2 := ih st' hw2 hroot hwfl h1.2.1 h1.2.2
    exact ⟨stableGroups_trans h1.1 h2.1, h2.2.1, h2.2.2⟩
  · intro absParent st st' hw hroot hwfl hids hcov
    have hw2 : Except.ok st = Except.ok st' := hw
    cases hw2
    exact ⟨stableGroups_refl _, hids, hcov⟩
  · intro u us absParent st e hwe ih1 st' hw hroot hwfl hids hcov
    unfold walkSubs at hw
    rw [hwe] at hw
    exact (Except.noConfusion hw)
  · intro u us absParent st stMid hwd ih1 ih2 st' hw hroot hwfl hids hcov
    unfold walkSubs at hw
    rw [hwd] at hw
    have hw2 : walkSubs ext rootTree rootPath packageid packagetype us absParent stMid
        = .ok st' := hw
    simp only [FSTree.wfList, Bool.and_eq_true] at hwfl
    have hrc := Hroot_child rootPath absParent u.name hroot hwfl.1.1
    have h1 := ih1 stMid hwd hrc hwfl.1.2 hids hcov
    have h2 := ih2 st' hw2 hroot hwfl.2 h1.2.1 h1.2.2
    exact ⟨stableGroups_trans h1.1 h2.1, h2.2.1, h2.2.2⟩

/-- Claim C6 witness: the amended round-trip applied to a concretely
generated descriptor. -/
theorem C6_schema_location_roundtrip_witness :
    (extC.isfile (mdC.schemas ++ "/mets.xsd") = true
      ∧ (∀ c ∈ (relpath (mdC.schemas ++ "/mets.xsd") "/pkg").data, c ≠ ' ')
      ∧ docSchemaLoc (createMets extC "/pkg" mdC (FSTree.node "" [] []))
          = some "http://www.loc.gov/METS/ schemas/mets.xsd http://www.w3.org/1999/xlink https://www.w3.org/1999/xlink.xsd https://DILCIS.eu/XML/METS/CSIPExtensionMETS schemas/DILCISExtensionMETS.xsd")
    ∧ ParsedMets.get_mets_schema_from_schema_location "/pkg"
        "http://www.loc.gov/METS/ schemas/mets.xsd http://www.w3.org/1999/xlink https://www.w3.org/1999/xlink.xsd https://DILCIS.eu/XML/METS/CSIPExtensionMETS schemas/DILCISExtensionMETS.xsd"
        = .ok ("/pkg" ++ relpath (mdC.schemas ++ "/mets.xsd") "/pkg") :=
  ⟨⟨rfl, by decide, rfl⟩,
    C6_schema_location_roundtrip extC "/pkg" mdC (FSTree.node "" [] []) rfl (by decide) _ rfl⟩

theorem subdirGroupStep_pos (st : GenState) (sub : String)
    (hc : folders_with_USE.contains sub = true) :
    subdirGroupStep st sub
      = { st with ctr := st.ctr + 1,
                  groupDefs := st.groupDefs ++ [(st.ctr, sub)],
                  grpOfUse := (sub, st.ctr) :: st.grpOfUse,
                  fileSecGids := st.fileSecGids ++ [st.ctr] } := by
  unfold subdirGroupStep
  rw [if_pos hc]
  rfl

theorem subdirGroupStep_neg (st : GenState) (sub : String)
    (hc : ¬ folders_with_USE.contains sub = true) :
    subdirGroupStep st sub = st := by
  unfold subdirGroupStep
  rw [if_neg hc]

theorem initFold_facts (names : List String) :
    ∀ st : GenState,
      (∀ gid ∈ (List.foldl subdirGroupStep st names).fileSecGids,
          gid ∈ st.fileSecGids ∨ st.ctr ≤ gid)
      ∧ (∀ p ∈ (List.foldl subdirGroupStep st names).groupDefs,
          p ∈ st.groupDefs
            ∨ (p.1 ∈ (List.foldl subdirGroupStep st names).fileSecGids
                ∧ p.2 ∈ folders_with_USE ∧ p.2 ∈ names))
      ∧ (List.foldl subdirGroupStep st names).filesLog = st.filesLog
      ∧ (List.foldl subdirGroupStep st names).physDivs = st.physDivs
      ∧ ∀ gid ∈ st.fileSecGids, gid ∈ (List.foldl subdirGroupStep st names).fileSecGids := by
  induction names with
  | nil =>
    intro st
    exact ⟨fun gid h => Or.inl h, fun p h => Or.inl h, rfl, rfl, fun gid h => h⟩
  | cons sub rest ih =>
    intro st
    have hfold : List.foldl subdirGroupStep st (sub :: rest)
        = List.foldl subdirGroupStep (subdirGroupStep st sub) rest := rfl
    obtain ⟨ih1, ih2, ih3, ih4, ih5⟩ := ih (subdirGroupStep st sub)
    by_cases hc : folders_with_USE.contains sub = true
    · rw [subdirGroupStep_pos st sub hc] at ih1 ih2 ih3 ih4 ih5
      rw [hfold, subdirGroupStep_pos st sub hc]
      refine ⟨?_, ?_, ?_, ?_, ?_⟩
      · intro gid hg
        rcases ih1 gid hg with hmem | hge
        · rcases List.mem_append.mp hmem with h | h
          · exact Or.inl h
          · have hge2 : gid = st.ctr := by simpa using h
            exact Or.inr (hge2 ▸ le_refl _)
        · exact Or.inr (le_trans (Nat.le_succ _) hge)
      · intro p hp
        rcases ih2 p hp with hmem | ⟨h1, h2, h3⟩
        · rcases List.mem_append.mp hmem with h | h
          · exact Or.inl h
          · have hpe : p = (st.ctr, sub) := by simpa using h
            refine Or.inr ⟨?_, ?_, ?_⟩
            · rw [hpe]
              exact ih5 st.ctr (List.mem_append.mpr (Or.inr (by simp)))
            · rw [hpe]
              simpa using hc
            · rw [hpe]
              exact List.mem_cons_self sub rest
        · exact Or.inr ⟨h1, h2, List.mem_cons_of_mem sub h3⟩
      · exact ih3
      · exact ih4
      · intro gid hg
        exact ih5 gid (List.mem_append.mpr (Or.inl hg))
    · rw [subdirGroupStep_neg st sub hc] at ih1 ih2 ih3 ih4 ih5
      rw [hfold, subdirGroupStep_neg st sub hc]
      refine ⟨ih1, ?_, ih3, ih4, ih5⟩
      intro p hp
      rcases ih2 p hp with h | ⟨h1, h2, h3⟩
      · exact Or.inl h
      · exact Or.inr ⟨h1, h2, List.mem_cons_of_mem sub h3⟩

theorem serializeFileSec_mem (st : GenState) (g : FileGrp) (hg : g ∈ serializeFileSec st) :
    g.gid ∈ st.fileSecGids ∧ (g.gid, g.use) ∈ st.groupDefs
      ∧ g.files = groupFiles st g.gid := by
  unfold serializeFileSec at hg
  rw [List.mem_filterMap] at hg
  obtain ⟨gid, hgid, hmap⟩ := hg
  rw [Option.map_eq_some'] at hmap
  obtain ⟨p, hfind, hpg⟩ := hmap
  have hmem : p ∈ st.groupDefs := List.mem_of_find?_eq_some hfind
  have hpe := List.find?_some hfind
  have hpeq : p.1 = gid := by simpa using hpe
  subst hpg
  refine ⟨?_, ?_, ?_⟩
  · dsimp only
    rw [hpeq]
    exact hgid
  · exact hmem
  · dsimp only
    rw [hpeq]

theorem groupFiles_mem (st : GenState) (gid : Nat) (f : MetsFile)
    (hf : f ∈ groupFiles st gid) : (gid, f) ∈ st.filesLog := by
  unfold groupFiles at hf
  rw [List.mem_map] at hf
  obtain ⟨⟨a, b⟩, hp, hpf⟩ := hf
  rw [List.mem_filter] at hp
  have h1 : a = gid := by simpa using hp.2
  have h2 : b = f := hpf
  rw [← h1, ← h2]
  exact hp.1

theorem log_id_inj (st : GenState) (hids : IdsOk st) (p q : Nat × MetsFile)
    (hp : p ∈ st.filesLog) (hq : q ∈ st.filesLog) (hid : p.2.id = q.2.id) : p = q :=
  List.inj_on_of_nodup_map hids.2 hp hq hid

theorem C10_core (ext : Externals) (rootPath : String) (tree : FSTree)
    (packageid packagetype : String) (stStart stF : GenState)
    (hw : walkDir ext tree rootPath packageid packagetype tree rootPath stStart = .ok stF)
    (hwf : FSTree.wf tree = true)
    (hlog0 : stStart.filesLog = [])
    (hphys0 : stStart.physDivs = [])
    (hgids : ∀ gid ∈ stStart.fileSecGids, 3 ≤ gid)
    (hdefs : ∀ p ∈ stStart.groupDefs,
        p = (2, get_folder_with_USE rootPath)
        ∨ (p.1 ∈ stStart.fileSecGids ∧ p.2 ∈ folders_with_USE
            ∧ p.2 ∈ topSubdirNames tree))
    (hdom : get_folder_with_USE rootPath ∉ topSubdirNames tree
        ∨ get_folder_with_USE rootPath ∉ folders_with_USE) :
    (∀ g ∈ serializeFileSec stF,
        g.use ∈ folders_with_USE ∧ g.use ∈ topSubdirNames tree
          ∧ g.use ≠ get_folder_with_USE rootPath)
    ∧ ∀ f ∈ groupFiles stF 2,
        (∀ g ∈ serializeFileSec stF, ∀ fg ∈ g.files, fg.id ≠ f.id)
        ∧ ∃ d ∈ stF.physDivs, Ptr.fptr f.id ∈ d.children := by
  have hids0 : IdsOk stStart := by
    constructor
    · intro p hp
      rw [hlog0] at hp
      cases hp
    · rw [hlog0]
      exact List.nodup_nil
  have hcov0 : LogCov stStart := by
    intro p hp
    rw [hlog0] at hp
    cases hp
  obtain ⟨hst, hidsF, hcovF⟩ := walk_master ext tree rootPath packageid packagetype
    tree rootPath stStart stF hw (Or.inl rfl) hwf hids0 hcov0
  obtain ⟨hGd, hGu, hGs⟩ := hst
  have hserbig : ∀ g ∈ serializeFileSec stF, 3 ≤ g.gid := by
    intro g hg
    obtain ⟨hg1, -, -⟩ := serializeFileSec_mem stF g hg
    rw [hGs] at hg1
    exact hgids g.gid hg1
  constructor
  · intro g hg
    obtain ⟨hg1, hg2, -⟩ := serializeFileSec_mem stF g hg
    rw [hGs] at hg1
    rw [hGd] at hg2
    rcases hdefs (g.gid, g.use) hg2 with hcase | ⟨-, hfol, hnames⟩
    · have hgid2 : g.gid = 2 := congrArg Prod.fst hcase
      have := hgids g.gid hg1
      rw [hgid2] at this
      exact absurd this (by decide)
    · refine ⟨hfol, hnames, ?_⟩
      intro hcontra
      rcases hdom with hl | hr
      · exact hl (hcontra ▸ hnames)
      · exact hr (hcontra ▸ hfol)
  · intro f hf
    have hflog : (2, f) ∈ stF.filesLog := groupFiles_mem stF 2 f hf
    constructor
    · intro g hg fg hfg hcontra
      obtain ⟨-, -, hg3⟩ := serializeFileSec_mem stF g hg
      rw [hg3] at hfg
      have hglog : (g.gid, fg) ∈ stF.filesLog := groupFiles_mem stF g.gid fg hfg
      have heq : ((g.gid, fg) : Nat × MetsFile) = (2, f) :=
        log_id_inj stF hidsF (g.gid, fg) (2, f) hglog hflog hcontra
      have hgid2 : g.gid = 2 := congrArg Prod.fst heq
      have := hserbig g hg
      rw [hgid2] at this
      exact absurd this (by decide)
    · exact hcovF (2, f) hflog

/-- Claim C10: when the package root's own role token (the dominant group's
`USE`) does not also name a recognized top-level subdirectory, every group
appended to the serialized file section carries a recognized top-level
subdirectory token different from the dominant one, no file registered into
the dominant group appears in any serialized file group, and yet every such
file keeps a file-pointer node in a completed structural-map division. -/
theorem C10_dominant_group (ext : Externals) (rootPath : String) (md : MetsData)
    (tree : FSTree)
    (hwf : FSTree.wf tree = true)
    (hdom : get_folder_with_USE rootPath ∉ topSubdirNames tree
      ∨ get_folder_with_USE rootPath ∉ folders_with_USE) :
    (∀ g ∈ docFileSec (createMets ext rootPath md tree),
        g.use ∈ folders_with_USE ∧ g.use ∈ topSubdirNames tree
          ∧ g.use ≠ get_folder_with_USE rootPath)
    ∧ ∀ f ∈ docDominantFiles (createMets ext rootPath md tree),
        (∀ g ∈ docFileSec (createMets ext rootPath md tree), ∀ fg ∈ g.files, fg.id ≠ f.id)
        ∧ ∃ d ∈ docPhysDivs (createMets ext rootPath md tree), Ptr.fptr f.id ∈ d.children := by
  unfold createMets
  dsimp only
  split
  · rename_i e hw
    simp [docFileSec, docDominantFiles, docPhysDivs]
  · rename_i stF hw
    dsimp only [docFileSec, docDominantFiles, docPhysDivs]
    refine C10_core ext rootPath tree md.packageid md.ptype _ stF hw hwf ?_ ?_ ?_ ?_ hdom
    · split
      · exact (initFold_facts _ _).2.2.1
      · exact (initFold_facts _ _).2.2.1
    · split
      · exact (initFold_facts _ _).2.2.2.1
      · exact (initFold_facts _ _).2.2.2.1
    · intro gid hgid
      have hmem : gid ∈ (List.foldl subdirGroupStep
          { ctr := 3, groupDefs := [(2, get_folder_with_USE rootPath)],
            grpOfUse := [(get_folder_with_USE rootPath, 2)], fileSecGids := [],
            dmdSecs := [], amdSec := [], physDivs := [], metadataPtrs := [],
            schemaPtrs := [], contentPtrs := [], filesLog := [] }
          (List.map FSTree.name tree.subdirs)).fileSecGids := by
        revert hgid
        split
        · exact fun h => h
        · exact fun h => h
      rcases (initFold_facts _ _).1 gid hmem with h | h
      · cases h
      · exact h
    · intro p hp
      have hmem : p ∈ (List.foldl subdirGroupStep
          { ctr := 3, groupDefs := [(2, get_folder_with_USE rootPath)],
            grpOfUse := [(get_folder_with_USE rootPath, 2)], fileSecGids := [],
            dmdSecs := [], amdSec := [], physDivs := [], metadataPtrs := [],
            schemaPtrs := [], contentPtrs := [], filesLog := [] }
          (List.map FSTree.name tree.subdirs)).groupDefs := by
        revert hp
        split
        · exact fun h => h
        · exact fun h => h
      rcases (initFold_facts _ _).2.1 p hmem with h | ⟨h1, h2, h3⟩
      · left
        simpa using h
      · right
        refine ⟨?_, h2, h3⟩
        revert h1
        split
        · exact fun h => h
        · exact fun h => h

/-- Claim C10 witness: the dominant-group separation evaluated on a concrete
package whose root classifies as `other`, with one recognized and one
unrecognized top-level subdirectory. -/
theorem C10_dominant_group_witness :
    (FSTree.wf treeC10 = true
      ∧ (get_folder_with_USE "/pkg" ∉ topSubdirNames treeC10
          ∨ get_folder_with_USE "/pkg" ∉ folders_with_USE))
    ∧ ((∀ g ∈ docFileSec (createMets extC "/pkg" mdC treeC10),
          g.use ∈ folders_with_USE ∧ g.use ∈ topSubdirNames treeC10
            ∧ g.use ≠ get_folder_with_USE "/pkg")
       ∧ ∀ f ∈ docDominantFiles (createMets extC "/pkg" mdC treeC10),
          (∀ g ∈ docFileSec (createMets extC "/pkg" mdC treeC10),
              ∀ fg ∈ g.files, fg.id ≠ f.id)
          ∧ ∃ d ∈ docPhysDivs (createMets extC "/pkg" mdC treeC10),
              Ptr.fptr f.id ∈ d.children) :=
  ⟨⟨by decide, by decide⟩,
    C10_dominant_group extC "/pkg" mdC treeC10 (by decide) (by decide)⟩

end Eatb
